import Mathlib

/-!
Verification of the voxel-grid component (`esp::geo::VoxelGrid`): the
index codec (`hashVoxelIndex` / `reverseHash`), the interior/exterior
classification (`generateInteriorExteriorVoxelGrid`), the Manhattan and
Euclidean signed-distance-field generators, the distance flow field and
the integer-range boolean-grid builder.

Modelling conventions (shallow embedding of the C++ source):

* `Mn::Vector3i` is `Vec3i` (a triple of `Int`); the grid dimensions
  `m_voxelGridDimensions` are a triple of `Nat` (the source stores
  non-negative `int`s produced by the voxelizer).
* The C++ `int` is modelled by `Int`; no arithmetic in the verified
  paths overflows 32 bits (the sweeps explicitly clamp at
  `-2147483646` / `-2147483647` before taking `abs`, which we reproduce
  literally), so no wrap-around is modelled.  C++ `/` and `%` on `int`
  truncate toward zero, which is `Int.tdiv` / `Int.tmod`.
* The name→(kind, buffer) map `grids_` is a function
  `String → Option GridData`; `std::map::insert_or_assign`-style
  overwrite (`addGrid`) is `gInsert`, `erase` (`removeGrid`) is
  `gErase`.  A typed grid buffer is a total function from coordinates;
  cells outside the valid range keep the zero of the element kind
  (`Corrade::Containers::ValueInit` zero-initialisation).
* Failure paths (a failed `assert`, a `getGrid` on a missing name or on
  a mismatched kind, whose C++ behaviour is an abort or an out-of-range
  access) are modelled by `Option`: the operation returns `none`.
* `Mn::Vector3` (float) grids only ever hold integer-valued vectors in
  the verified code paths (cell coordinates, the `2 * dims` sentinel and
  their differences), so they are modelled by `Vec3i`.  A float
  signed-distance value is modelled exactly as a pair
  `(sign, squared distance) : Int × Int`, read as `sign * sqrt sq`;
  every float comparison the source makes is between lengths
  `(u - coords).length() <= (v - coords).length()` of such
  integer-valued vectors, which under exact real arithmetic is
  equivalent to comparing the squared lengths (`Real.sqrt` is monotone),
  and that exact comparison of `Int`s is what the model performs.
-/

namespace VG

/-- A 3-component integer vector (`Magnum::Vector3i`). -/
structure Vec3i where
  x : Int
  y : Int
  z : Int
deriving DecidableEq, Repr

/-- The grid dimensions `m_voxelGridDimensions` (non-negative). -/
structure Dims3 where
  x : Nat
  y : Nat
  z : Nat
deriving DecidableEq, Repr

theorem mk_x (a b c : Int) : (Vec3i.mk a b c).x = a := rfl

theorem mk_y (a b c : Int) : (Vec3i.mk a b c).y = b := rfl

theorem mk_z (a b c : Int) : (Vec3i.mk a b c).z = c := rfl

/-- Component-wise subtraction of `Vec3i` (used by the flow field). -/
def vsub (a b : Vec3i) : Vec3i := ⟨a.x - b.x, a.y - b.y, a.z - b.z⟩

/-- `VoxelGrid::gridSize`: `dims[0] * dims[1] * dims[2]`, as the C++ `int`. -/
def gridSize (d : Dims3) : Int := (d.x : Int) * (d.y : Int) * (d.z : Int)

/-- `VoxelGrid::isValidIndex`: every component is `>= 0` and `<` the
corresponding dimension. -/
def isValidIndex (d : Dims3) (c : Vec3i) : Bool :=
  decide (0 ≤ c.x) && decide (0 ≤ c.y) && decide (0 ≤ c.z) &&
  decide (c.x < (d.x : Int)) && decide (c.y < (d.y : Int)) && decide (c.z < (d.z : Int))

/-- The linear index `coords[2] + coords[1]*dims[2] + coords[0]*dims[2]*dims[1]`
(z varies fastest); this is both the body of `hashVoxelIndex` and the
layout of the `StridedArrayView3D` the getters and setters index into. -/
def hashRaw (d : Dims3) (c : Vec3i) : Int :=
  c.z + c.y * (d.z : Int) + c.x * (d.z : Int) * (d.y : Int)

/-- `VoxelGrid::hashVoxelIndex`: asserts `isValidIndex(coords)` (modelled
as `none` on failure), then returns the linear index. -/
def hashVoxelIndex (d : Dims3) (c : Vec3i) : Option Int :=
  if isValidIndex d c then some (hashRaw d c) else none

/-- `VoxelGrid::reverseHash`: asserts `hash < gridSize()` (modelled as
`none` on failure; there is no lower-bound check), then returns
`(hash % dims[2], hash / dims[2] % dims[1], hash / dims[2] / dims[1])`
with C++ truncated division/remainder. -/
def reverseHash (d : Dims3) (h : Int) : Option Vec3i :=
  if h < gridSize d then
    some ⟨h.tmod (d.z : Int),
          (h.tdiv (d.z : Int)).tmod (d.y : Int),
          (h.tdiv (d.z : Int)).tdiv (d.y : Int)⟩
  else none

/-- The valid cells in the order of the source's nested loops
(`for i < dims[0], for j < dims[1], for k < dims[2]`), which is ascending
linear-index order. -/
def cellList (d : Dims3) : List Vec3i :=
  (List.range d.x).flatMap fun (i : Nat) =>
    (List.range d.y).flatMap fun (j : Nat) =>
      (List.range d.z).map fun (k : Nat) => (⟨(i : Int), (j : Int), (k : Int)⟩ : Vec3i)

/-- The cells in the order of the backward sweeps (descending `i, j, k`). -/
def cellListDesc (d : Dims3) : List Vec3i := (cellList d).reverse

theorem mem_cellList {d : Dims3} {c : Vec3i} :
    c ∈ cellList d ↔ isValidIndex d c = true := by
  obtain ⟨cx, cy, cz⟩ := c
  simp only [cellList, isValidIndex, List.mem_flatMap, List.mem_map, List.mem_range,
    Vec3i.mk.injEq, Bool.and_eq_true, decide_eq_true_eq, mk_x, mk_y, mk_z]
  constructor
  · rintro ⟨i, hi, j, hj, k, hk, rfl, rfl, rfl⟩
    omega
  · rintro ⟨⟨⟨⟨⟨h1, h2⟩, h3⟩, h4⟩, h5⟩, h6⟩
    exact ⟨cx.toNat, by omega, cy.toNat, by omega, cz.toNat, by omega,
      by omega, by omega, by omega⟩

theorem mem_cellListDesc {d : Dims3} {c : Vec3i} :
    c ∈ cellListDesc d ↔ isValidIndex d c = true := by
  rw [cellListDesc, List.mem_reverse, mem_cellList]

/-- One typed grid: the element-kind tag together with the buffer contents,
indexed by coordinate.  Float scalars are `(sign, squared length)` pairs
and float vectors are integer vectors, see the module comment. -/
inductive GridData where
  | boolG (f : Vec3i → Bool)
  | intG (f : Vec3i → Int)
  | floatG (f : Vec3i → Int × Int)
  | vec3G (f : Vec3i → Vec3i)

/-- The `VoxelGrid` aggregate: the fixed dimensions and the
name→(kind, buffer) map `grids_`. -/
structure VoxelGrid where
  dims : Dims3
  grids : String → Option GridData

/-- `addGrid`: create a grid under `k`, or overwrite an existing one. -/
def gInsert (m : String → Option GridData) (k : String) (v : GridData) :
    String → Option GridData :=
  fun n => if n = k then some v else m n

/-- `removeGrid`: erase the entry under `k`. -/
def gErase (m : String → Option GridData) (k : String) :
    String → Option GridData :=
  fun n => if n = k then none else m n

/-! ## The six ray scans of `generateInteriorExteriorVoxelGrid`

Each scan walks one ray (the scan axis varies, the two other coordinates
are fixed) carrying the `hit` flag of the source: before a boundary cell
is seen nothing is marked; the boundary cell and every cell visited
after it are marked `true` in the direction's shadow grid.  `rayMarks`
returns the list of marked indices of one ray. -/

/-- The marked scan positions of one ray, given the boundary predicate
along the ray, the visited indices in visit order, and the `hit` flag. -/
def rayMarks (isB : Int → Bool) : List Int → Bool → List Int
  | [], _ => []
  | i :: rest, hit =>
    if hit then i :: rayMarks isB rest true
    else if isB i then i :: rayMarks isB rest true
    else rayMarks isB rest false

/-- The visit order of the positive-direction scans:
`ind = -1; while (++ind < dim)` visits `0, 1, …, dim-1`. -/
def posRange (n : Nat) : List Int := (List.range n).map fun (k : Nat) => (k : Int)

/-- The visit order of the negative-direction scans:
`ind = dim - 1; while (ind--)` tests before decrementing, so the body
runs for `ind = dim-2, dim-3, …, 0` — the cell at index `dim-1` is never
visited. -/
def negRange (n : Nat) : List Int := ((List.range (n - 1)).reverse).map fun (k : Nat) => (k : Int)

/-- Whether `c.y`/`c.z` lie in the ranges of the two outer loops of the
X-axis scans (cells outside them keep the zero-initialised `false`). -/
def inYZ (d : Dims3) (c : Vec3i) : Bool :=
  decide (0 ≤ c.y) && decide (c.y < (d.y : Int)) && decide (0 ≤ c.z) && decide (c.z < (d.z : Int))

/-- Same for the Y-axis scans (outer loops over `i` and `k`). -/
def inXZ (d : Dims3) (c : Vec3i) : Bool :=
  decide (0 ≤ c.x) && decide (c.x < (d.x : Int)) && decide (0 ≤ c.z) && decide (c.z < (d.z : Int))

/-- Same for the Z-axis scans (outer loops over `i` and `j`). -/
def inXY (d : Dims3) (c : Vec3i) : Bool :=
  decide (0 ≤ c.x) && decide (c.x < (d.x : Int)) && decide (0 ≤ c.y) && decide (c.y < (d.y : Int))

/-- Contents of the transient `"negXShadow"` grid after the scans. -/
def negXShadowFun (d : Dims3) (bnd : Vec3i → Bool) : Vec3i → Bool := fun c =>
  inYZ d c && decide (c.x ∈ rayMarks (fun x => bnd ⟨x, c.y, c.z⟩) (negRange d.x) false)

/-- Contents of the transient `"posXShadow"` grid after the scans. -/
def posXShadowFun (d : Dims3) (bnd : Vec3i → Bool) : Vec3i → Bool := fun c =>
  inYZ d c && decide (c.x ∈ rayMarks (fun x => bnd ⟨x, c.y, c.z⟩) (posRange d.x) false)

/-- Contents of the transient `"negYShadow"` grid after the scans. -/
def negYShadowFun (d : Dims3) (bnd : Vec3i → Bool) : Vec3i → Bool := fun c =>
  inXZ d c && decide (c.y ∈ rayMarks (fun y => bnd ⟨c.x, y, c.z⟩) (negRange d.y) false)

/-- Contents of the transient `"posYShadow"` grid after the scans. -/
def posYShadowFun (d : Dims3) (bnd : Vec3i → Bool) : Vec3i → Bool := fun c =>
  inXZ d c && decide (c.y ∈ rayMarks (fun y => bnd ⟨c.x, y, c.z⟩) (posRange d.y) false)

/-- Contents of the transient `"negZShadow"` grid after the scans. -/
def negZShadowFun (d : Dims3) (bnd : Vec3i → Bool) : Vec3i → Bool := fun c =>
  inXY d c && decide (c.z ∈ rayMarks (fun z => bnd ⟨c.x, c.y, z⟩) (negRange d.z) false)

/-- Contents of the transient `"posZShadow"` grid after the scans. -/
def posZShadowFun (d : Dims3) (bnd : Vec3i → Bool) : Vec3i → Bool := fun c =>
  inXY d c && decide (c.z ∈ rayMarks (fun z => bnd ⟨c.x, c.y, z⟩) (posRange d.z) false)

/-- The voting loop of `generateInteriorExteriorVoxelGrid`: boundary
cells get `0`; otherwise `nX … pZ` are the "unshadowed" flags and a cell
is exterior (`INT_MAX`) when unshadowed from both ends of some axis, or
unshadowed from at least one end of each of the three axes; else
interior (`INT_MIN`).  Cells outside the loops keep the zero of the
freshly created grid. -/
def intExtFun (d : Dims3) (bnd : Vec3i → Bool) : Vec3i → Int := fun c =>
  if isValidIndex d c then
    if bnd c then 0
    else
      let nX := !(negXShadowFun d bnd c)
      let pX := !(posXShadowFun d bnd c)
      let nY := !(negYShadowFun d bnd c)
      let pY := !(posYShadowFun d bnd c)
      let nZ := !(negZShadowFun d bnd c)
      let pZ := !(posZShadowFun d bnd c)
      if ((nX && pX) || (nY && pY) || (nZ && pZ)) ||
          ((nX || pX) && (nY || pY) && (nZ || pZ)) then 2147483647
      else -2147483648
  else 0

/-- `VoxelGrid::generateInteriorExteriorVoxelGrid`.  The six `addGrid`
calls and the per-grid scan loops are collapsed into one `gInsert` per
shadow grid carrying the scan result (each loop nest writes exactly one
grid, and the classification loop reads the shadow grids just after
they were written, i.e. exactly these contents); the final `removeGrid`
calls are the `gErase`s.  Reading `"Boundary"` through a missing name or
a non-bool kind is the failure case (`none`). -/
def generateInteriorExteriorVoxelGrid (s : VoxelGrid) : Option VoxelGrid :=
  match s.grids "Boundary" with
  | some (GridData.boolG bnd) =>
    let d := s.dims
    let m1 := gInsert s.grids "negXShadow" (GridData.boolG (negXShadowFun d bnd))
    let m2 := gInsert m1 "posXShadow" (GridData.boolG (posXShadowFun d bnd))
    let m3 := gInsert m2 "negYShadow" (GridData.boolG (negYShadowFun d bnd))
    let m4 := gInsert m3 "posYShadow" (GridData.boolG (posYShadowFun d bnd))
    let m5 := gInsert m4 "negZShadow" (GridData.boolG (negZShadowFun d bnd))
    let m6 := gInsert m5 "posZShadow" (GridData.boolG (posZShadowFun d bnd))
    let m7 := gInsert m6 "InteriorExterior" (GridData.intG (intExtFun d bnd))
    let m8 := gErase (gErase (gErase (gErase (gErase (gErase m7
      "negXShadow") "posXShadow") "negYShadow") "posYShadow") "negZShadow") "posZShadow"
    some { s with grids := m8 }
  | _ => none

/-! ## Closed form of one ray scan

With `hit` raised the rest of the ray is marked wholesale; with `hit`
down the scan marks exactly the suffix starting at the first boundary
index, i.e. `dropWhile (not ∘ isB)`. -/

theorem rayMarks_hit (isB : Int → Bool) (l : List Int) : rayMarks isB l true = l := by
  induction l with
  | nil => rfl
  | cons a t ih => simp [rayMarks, ih]

theorem rayMarks_eq_dropWhile (isB : Int → Bool) (l : List Int) :
    rayMarks isB l false = l.dropWhile fun i => !(isB i) := by
  induction l with
  | nil => rfl
  | cons a t ih =>
    by_cases h : isB a = true
    · simp [rayMarks, List.dropWhile, h, rayMarks_hit]
    · simp only [Bool.not_eq_true] at h
      simp [rayMarks, List.dropWhile, h, ih]

theorem mem_dropWhile_asc {l : List Int} (hl : l.Pairwise (· < ·)) (p : Int → Bool) (i : Int) :
    i ∈ l.dropWhile (fun j => !(p j)) ↔ i ∈ l ∧ ∃ j ∈ l, j ≤ i ∧ p j = true := by
  induction l with
  | nil => simp [List.dropWhile]
  | cons a t ih =>
    have ha : ∀ x ∈ t, a < x := fun x hx => List.rel_of_pairwise_cons hl hx
    have ht : t.Pairwise (· < ·) := hl.of_cons
    by_cases h : p a = true
    · simp only [List.dropWhile, h, Bool.not_true]
      constructor
      · intro hm
        refine ⟨hm, a, List.mem_cons_self a t, ?_, h⟩
        rcases List.mem_cons.mp hm with rfl | hm'
        · exact le_refl i
        · exact le_of_lt (ha i hm')
      · exact fun hc => hc.1
    · simp only [Bool.not_eq_true] at h
      simp only [List.dropWhile, h, Bool.not_false]
      rw [ih ht]
      constructor
      · rintro ⟨hm, j, hj, hji, hpj⟩
        exact ⟨List.mem_cons_of_mem a hm, j, List.mem_cons_of_mem a hj, hji, hpj⟩
      · rintro ⟨hm, j, hj, hji, hpj⟩
        rcases List.mem_cons.mp hj with rfl | hj'
        · rw [h] at hpj; exact absurd hpj (by simp)
        · rcases List.mem_cons.mp hm with rfl | hm'
          · exact absurd hji (by simpa using ha j hj')
          · exact ⟨hm', j, hj', hji, hpj⟩

theorem mem_dropWhile_desc {l : List Int} (hl : l.Pairwise (· > ·)) (p : Int → Bool) (i : Int) :
    i ∈ l.dropWhile (fun j => !(p j)) ↔ i ∈ l ∧ ∃ j ∈ l, i ≤ j ∧ p j = true := by
  induction l with
  | nil => simp [List.dropWhile]
  | cons a t ih =>
    have ha : ∀ x ∈ t, x < a := fun x hx => List.rel_of_pairwise_cons hl hx
    have ht : t.Pairwise (· > ·) := hl.of_cons
    by_cases h : p a = true
    · simp only [List.dropWhile, h, Bool.not_true]
      constructor
      · intro hm
        refine ⟨hm, a, List.mem_cons_self a t, ?_, h⟩
        rcases List.mem_cons.mp hm with rfl | hm'
        · exact le_refl i
        · exact le_of_lt (ha i hm')
      · exact fun hc => hc.1
    · simp only [Bool.not_eq_true] at h
      simp only [List.dropWhile, h, Bool.not_false]
      rw [ih ht]
      constructor
      · rintro ⟨hm, j, hj, hji, hpj⟩
        exact ⟨List.mem_cons_of_mem a hm, j, List.mem_cons_of_mem a hj, hji, hpj⟩
      · rintro ⟨hm, j, hj, hji, hpj⟩
        rcases List.mem_cons.mp hj with rfl | hj'
        · rw [h] at hpj; exact absurd hpj (by simp)
        · rcases List.mem_cons.mp hm with rfl | hm'
          · exact absurd hji (by simpa using ha j hj')
          · exact ⟨hm', j, hj', hji, hpj⟩

theorem posRange_pairwise (n : Nat) : (posRange n).Pairwise (· < ·) := by
  unfold posRange
  refine List.Pairwise.map _ ?_ (List.pairwise_lt_range n)
  intro a b hab
  exact_mod_cast hab

theorem negRange_pairwise (n : Nat) : (negRange n).Pairwise (· > ·) := by
  unfold negRange
  have hrev : ((List.range (n - 1)).reverse).Pairwise (fun a b : Nat => a > b) :=
    List.pairwise_reverse.mpr (List.pairwise_lt_range (n - 1))
  refine List.Pairwise.map _ ?_ hrev
  intro a b hab
  exact_mod_cast hab

theorem mem_posRange {n : Nat} {i : Int} : i ∈ posRange n ↔ 0 ≤ i ∧ i < (n : Int) := by
  unfold posRange
  simp only [List.mem_map, List.mem_range]
  constructor
  · rintro ⟨k, hk, rfl⟩; omega
  · intro h; exact ⟨i.toNat, by omega, by omega⟩

theorem mem_negRange {n : Nat} {i : Int} : i ∈ negRange n ↔ 0 ≤ i ∧ i ≤ (n : Int) - 2 := by
  unfold negRange
  simp only [List.mem_map, List.mem_reverse, List.mem_range]
  constructor
  · rintro ⟨k, hk, rfl⟩; omega
  · intro h; exact ⟨i.toNat, by omega, by omega⟩

theorem posScanChar (n : Nat) (isB : Int → Bool) (i : Int) :
    i ∈ rayMarks isB (posRange n) false ↔
      0 ≤ i ∧ i < (n : Int) ∧ ∃ j, 0 ≤ j ∧ j ≤ i ∧ isB j = true := by
  rw [rayMarks_eq_dropWhile, mem_dropWhile_asc (posRange_pairwise n)]
  constructor
  · rintro ⟨hm, j, hj, hji, hpj⟩
    have h1 := mem_posRange.mp hm
    have h2 := mem_posRange.mp hj
    exact ⟨h1.1, h1.2, j, h2.1, hji, hpj⟩
  · rintro ⟨h0, h1, j, hj0, hji, hpj⟩
    exact ⟨mem_posRange.mpr ⟨h0, h1⟩, j, mem_posRange.mpr ⟨hj0, by omega⟩, hji, hpj⟩

theorem negScanChar (n : Nat) (isB : Int → Bool) (i : Int) :
    i ∈ rayMarks isB (negRange n) false ↔
      0 ≤ i ∧ i ≤ (n : Int) - 2 ∧ ∃ j, i ≤ j ∧ j ≤ (n : Int) - 2 ∧ isB j = true := by
  rw [rayMarks_eq_dropWhile, mem_dropWhile_desc (negRange_pairwise n)]
  constructor
  · rintro ⟨hm, j, hj, hij, hpj⟩
    have h1 := mem_negRange.mp hm
    have h2 := mem_negRange.mp hj
    exact ⟨h1.1, h1.2, j, hij, h2.2, hpj⟩
  · rintro ⟨h0, h1, j, hij, hj2, hpj⟩
    exact ⟨mem_negRange.mpr ⟨h0, h1⟩, j, mem_negRange.mpr ⟨by omega, hj2⟩, hij, hpj⟩

theorem inYZ_of_valid {d : Dims3} {c : Vec3i} (h : isValidIndex d c = true) :
    inYZ d c = true := by
  simp only [isValidIndex, Bool.and_eq_true, decide_eq_true_eq] at h
  simp only [inYZ, Bool.and_eq_true, decide_eq_true_eq]
  omega

theorem inXZ_of_valid {d : Dims3} {c : Vec3i} (h : isValidIndex d c = true) :
    inXZ d c = true := by
  simp only [isValidIndex, Bool.and_eq_true, decide_eq_true_eq] at h
  simp only [inXZ, Bool.and_eq_true, decide_eq_true_eq]
  omega

theorem inXY_of_valid {d : Dims3} {c : Vec3i} (h : isValidIndex d c = true) :
    inXY d c = true := by
  simp only [isValidIndex, Bool.and_eq_true, decide_eq_true_eq] at h
  simp only [inXY, Bool.and_eq_true, decide_eq_true_eq]
  omega

theorem valid_bounds {d : Dims3} {c : Vec3i} (h : isValidIndex d c = true) :
    0 ≤ c.x ∧ c.x < (d.x : Int) ∧ 0 ≤ c.y ∧ c.y < (d.y : Int) ∧
      0 ≤ c.z ∧ c.z < (d.z : Int) := by
  simp only [isValidIndex, Bool.and_eq_true, decide_eq_true_eq] at h
  omega

/-- C1 (counterexample): on a 3×1×1 grid whose only boundary cell sits at
`(2,0,0)` — the edge cell where the negative-X scan starts according to
the claim — the `"negXShadow"` grid is `false` at the boundary cell and
at both farther cells of the ray: the scan never visits index
`dims[0]-1`, so the boundary cell at the scan-start edge casts no shadow
at all, contradicting the claim that it shadows the whole remainder of
the ray. -/
theorem c1_counterexample :
    (fun c => decide (c = (⟨2, 0, 0⟩ : Vec3i))) (⟨2, 0, 0⟩ : Vec3i) = true ∧
    isValidIndex ⟨3, 1, 1⟩ (⟨2, 0, 0⟩ : Vec3i) = true ∧
    negXShadowFun ⟨3, 1, 1⟩ (fun c => decide (c = (⟨2, 0, 0⟩ : Vec3i))) ⟨2, 0, 0⟩ = false ∧
    negXShadowFun ⟨3, 1, 1⟩ (fun c => decide (c = (⟨2, 0, 0⟩ : Vec3i))) ⟨1, 0, 0⟩ = false ∧
    negXShadowFun ⟨3, 1, 1⟩ (fun c => decide (c = (⟨2, 0, 0⟩ : Vec3i))) ⟨0, 0, 0⟩ = false := by
  decide

/-- C1 (amended): for every valid cell, the three positive-direction
scans start at the grid edge (index 0) and visit the whole ray — a cell
is shadowed iff some cell at or before it on the ray is boundary; the
three negative-direction scans start at index `dim-2`, one cell in from
the far edge, and visit indices `dim-2 … 0` — a cell is shadowed iff it
lies at index `≤ dim-2` and some cell between it and index `dim-2` is
boundary (a boundary cell at the unvisited far edge `dim-1` casts no
shadow). -/
theorem c1_amended (d : Dims3) (bnd : Vec3i → Bool) (c : Vec3i)
    (hv : isValidIndex d c = true) :
    (negXShadowFun d bnd c = true ↔
      c.x ≤ (d.x : Int) - 2 ∧
        ∃ x', c.x ≤ x' ∧ x' ≤ (d.x : Int) - 2 ∧ bnd ⟨x', c.y, c.z⟩ = true) ∧
    (posXShadowFun d bnd c = true ↔
      ∃ x', 0 ≤ x' ∧ x' ≤ c.x ∧ bnd ⟨x', c.y, c.z⟩ = true) ∧
    (negYShadowFun d bnd c = true ↔
      c.y ≤ (d.y : Int) - 2 ∧
        ∃ y', c.y ≤ y' ∧ y' ≤ (d.y : Int) - 2 ∧ bnd ⟨c.x, y', c.z⟩ = true) ∧
    (posYShadowFun d bnd c = true ↔
      ∃ y', 0 ≤ y' ∧ y' ≤ c.y ∧ bnd ⟨c.x, y', c.z⟩ = true) ∧
    (negZShadowFun d bnd c = true ↔
      c.z ≤ (d.z : Int) - 2 ∧
        ∃ z', c.z ≤ z' ∧ z' ≤ (d.z : Int) - 2 ∧ bnd ⟨c.x, c.y, z'⟩ = true) ∧
    (posZShadowFun d bnd c = true ↔
      ∃ z', 0 ≤ z' ∧ z' ≤ c.z ∧ bnd ⟨c.x, c.y, z'⟩ = true) := by
  obtain ⟨hx0, hx1, hy0, hy1, hz0, hz1⟩ := valid_bounds hv
  refine ⟨?_, ?_, ?_, ?_, ?_, ?_⟩
  · rw [negXShadowFun, Bool.and_eq_true, decide_eq_true_eq,
      negScanChar d.x (fun x => bnd ⟨x, c.y, c.z⟩) c.x]
    rw [inYZ_of_valid hv]
    constructor
    · rintro ⟨-, -, h1, h2⟩; exact ⟨h1, h2⟩
    · rintro ⟨h1, h2⟩; exact ⟨rfl, hx0, h1, h2⟩
  · rw [posXShadowFun, Bool.and_eq_true, decide_eq_true_eq,
      posScanChar d.x (fun x => bnd ⟨x, c.y, c.z⟩) c.x]
    rw [inYZ_of_valid hv]
    constructor
    · rintro ⟨-, -, -, h⟩; exact h
    · rintro h; exact ⟨rfl, hx0, hx1, h⟩
  · rw [negYShadowFun, Bool.and_eq_true, decide_eq_true_eq,
      negScanChar d.y (fun y => bnd ⟨c.x, y, c.z⟩) c.y]
    rw [inXZ_of_valid hv]
    constructor
    · rintro ⟨-, -, h1, h2⟩; exact ⟨h1, h2⟩
    · rintro ⟨h1, h2⟩; exact ⟨rfl, hy0, h1, h2⟩
  · rw [posYShadowFun, Bool.and_eq_true, decide_eq_true_eq,
      posScanChar d.y (fun y => bnd ⟨c.x, y, c.z⟩) c.y]
    rw [inXZ_of_valid hv]
    constructor
    · rintro ⟨-, -, -, h⟩; exact h
    · rintro h; exact ⟨rfl, hy0, hy1, h⟩
  · rw [negZShadowFun, Bool.and_eq_true, decide_eq_true_eq,
      negScanChar d.z (fun z => bnd ⟨c.x, c.y, z⟩) c.z]
    rw [inXY_of_valid hv]
    constructor
    · rintro ⟨-, -, h1, h2⟩; exact ⟨h1, h2⟩
    · rintro ⟨h1, h2⟩; exact ⟨rfl, hz0, h1, h2⟩
  · rw [posZShadowFun, Bool.and_eq_true, decide_eq_true_eq,
      posScanChar d.z (fun z => bnd ⟨c.x, c.y, z⟩) c.z]
    rw [inXY_of_valid hv]
    constructor
    · rintro ⟨-, -, -, h⟩; exact h
    · rintro h; exact ⟨rfl, hz0, hz1, h⟩

/-- C1 (amended, witness): the characterization applied on a 3×1×1 grid
with the single boundary cell `(1,0,0)` at the cell `(0,0,0)`. -/
theorem c1_amended_witness :
    isValidIndex ⟨3, 1, 1⟩ (⟨0, 0, 0⟩ : Vec3i) = true ∧
    (negXShadowFun ⟨3, 1, 1⟩ (fun c => decide (c = (⟨1, 0, 0⟩ : Vec3i))) ⟨0, 0, 0⟩ = true ↔
      (0 : Int) ≤ (3 : Nat) - 2 ∧
        ∃ x', (0 : Int) ≤ x' ∧ x' ≤ (3 : Nat) - 2 ∧
          (fun c => decide (c = (⟨1, 0, 0⟩ : Vec3i))) (⟨x', 0, 0⟩ : Vec3i) = true) :=
  ⟨by decide,
    (c1_amended ⟨3, 1, 1⟩ (fun c => decide (c = (⟨1, 0, 0⟩ : Vec3i))) ⟨0, 0, 0⟩ (by decide)).1⟩

/-! ## The classification generator: output grid and frame -/

/-- Net effect of `generateInteriorExteriorVoxelGrid` on the grid map:
the `"InteriorExterior"` entry holds the voting result, the six shadow
entries are gone, everything else is untouched. -/
theorem genIE_spec {s : VoxelGrid} {bnd : Vec3i → Bool}
    (h : s.grids "Boundary" = some (GridData.boolG bnd)) :
    ∃ s', generateInteriorExteriorVoxelGrid s = some s' ∧
      s'.dims = s.dims ∧
      s'.grids "InteriorExterior" = some (GridData.intG (intExtFun s.dims bnd)) ∧
      s'.grids "negXShadow" = none ∧ s'.grids "posXShadow" = none ∧
      s'.grids "negYShadow" = none ∧ s'.grids "posYShadow" = none ∧
      s'.grids "negZShadow" = none ∧ s'.grids "posZShadow" = none ∧
      (∀ n, n ≠ "InteriorExterior" → n ≠ "negXShadow" → n ≠ "posXShadow" →
        n ≠ "negYShadow" → n ≠ "posYShadow" → n ≠ "negZShadow" → n ≠ "posZShadow" →
        s'.grids n = s.grids n) := by
  rw [generateInteriorExteriorVoxelGrid, h]
  refine ⟨_, rfl, rfl, ?_, ?_, ?_, ?_, ?_, ?_, ?_, ?_⟩
  · simp [gInsert, gErase]
  · simp [gInsert, gErase]
  · simp [gInsert, gErase]
  · simp [gInsert, gErase]
  · simp [gInsert, gErase]
  · simp [gInsert, gErase]
  · simp [gInsert, gErase]
  · intro n h1 h2 h3 h4 h5 h6 h7
    simp [gInsert, gErase, h1, h2, h3, h4, h5, h6, h7]

/-- The `"InteriorExterior"` value of a valid cell is `0` exactly at
boundary cells. -/
theorem intExtFun_eq_zero_iff {d : Dims3} {bnd : Vec3i → Bool} {c : Vec3i}
    (hv : isValidIndex d c = true) :
    (intExtFun d bnd c = 0 ↔ bnd c = true) := by
  rw [intExtFun, if_pos hv]
  by_cases hb : bnd c = true
  · simp [hb]
  · rw [Bool.not_eq_true] at hb
    rw [hb]
    simp only [Bool.false_eq_true, if_false]
    split <;> simp

/-- C2: after `generateInteriorExteriorVoxelGrid`, a boundary cell holds
`0` in the `"InteriorExterior"` grid; a non-boundary cell holds the
exterior sentinel `INT_MAX` when it is unshadowed from both ends of at
least one axis or unshadowed from at least one end of each of the three
axes (per the six shadow grids of the scan phase), and the interior
sentinel `INT_MIN` otherwise. -/
theorem c2_interior_exterior_values (s : VoxelGrid) (bnd : Vec3i → Bool)
    (h : s.grids "Boundary" = some (GridData.boolG bnd)) :
    ∃ s' g, generateInteriorExteriorVoxelGrid s = some s' ∧
      s'.grids "InteriorExterior" = some (GridData.intG g) ∧
      ∀ c, isValidIndex s.dims c = true →
        (bnd c = true → g c = 0) ∧
        (bnd c = false →
          ((((negXShadowFun s.dims bnd c = false ∧ posXShadowFun s.dims bnd c = false) ∨
             (negYShadowFun s.dims bnd c = false ∧ posYShadowFun s.dims bnd c = false) ∨
             (negZShadowFun s.dims bnd c = false ∧ posZShadowFun s.dims bnd c = false)) ∨
            ((negXShadowFun s.dims bnd c = false ∨ posXShadowFun s.dims bnd c = false) ∧
             (negYShadowFun s.dims bnd c = false ∨ posYShadowFun s.dims bnd c = false) ∧
             (negZShadowFun s.dims bnd c = false ∨ posZShadowFun s.dims bnd c = false))) →
            g c = 2147483647) ∧
          (¬(((negXShadowFun s.dims bnd c = false ∧ posXShadowFun s.dims bnd c = false) ∨
              (negYShadowFun s.dims bnd c = false ∧ posYShadowFun s.dims bnd c = false) ∨
              (negZShadowFun s.dims bnd c = false ∧ posZShadowFun s.dims bnd c = false)) ∨
             ((negXShadowFun s.dims bnd c = false ∨ posXShadowFun s.dims bnd c = false) ∧
              (negYShadowFun s.dims bnd c = false ∨ posYShadowFun s.dims bnd c = false) ∧
              (negZShadowFun s.dims bnd c = false ∨ posZShadowFun s.dims bnd c = false))) →
            g c = -2147483648)) := by
  obtain ⟨s', hrun, -, hie, -⟩ := genIE_spec h
  refine ⟨s', intExtFun s.dims bnd, hrun, hie, ?_⟩
  intro c hv
  rw [intExtFun, if_pos hv]
  refine ⟨fun hb => by rw [hb]; rfl, fun hb => ?_⟩
  rw [hb]
  simp only [Bool.false_eq_true, if_false]
  generalize negXShadowFun s.dims bnd c = a1
  generalize posXShadowFun s.dims bnd c = a2
  generalize negYShadowFun s.dims bnd c = a3
  generalize posYShadowFun s.dims bnd c = a4
  generalize negZShadowFun s.dims bnd c = a5
  generalize posZShadowFun s.dims bnd c = a6
  cases a1 <;> cases a2 <;> cases a3 <;> cases a4 <;> cases a5 <;> cases a6 <;> simp

/-- C2 (witness): the classification applied to a 1×1×1 grid whose one
cell is boundary. -/
theorem c2_witness :
    ∃ s' g,
      generateInteriorExteriorVoxelGrid
        ⟨⟨1, 1, 1⟩, fun n => if n = "Boundary" then some (GridData.boolG fun _ => true) else none⟩
        = some s' ∧
      s'.grids "InteriorExterior" = some (GridData.intG g) ∧
      ∀ c, isValidIndex ⟨1, 1, 1⟩ c = true →
        ((fun _ : Vec3i => true) c = true → g c = 0) ∧
        ((fun _ : Vec3i => true) c = false →
          ((((negXShadowFun ⟨1, 1, 1⟩ (fun _ => true) c = false ∧
              posXShadowFun ⟨1, 1, 1⟩ (fun _ => true) c = false) ∨
             (negYShadowFun ⟨1, 1, 1⟩ (fun _ => true) c = false ∧
              posYShadowFun ⟨1, 1, 1⟩ (fun _ => true) c = false) ∨
             (negZShadowFun ⟨1, 1, 1⟩ (fun _ => true) c = false ∧
              posZShadowFun ⟨1, 1, 1⟩ (fun _ => true) c = false)) ∨
            ((negXShadowFun ⟨1, 1, 1⟩ (fun _ => true) c = false ∨
              posXShadowFun ⟨1, 1, 1⟩ (fun _ => true) c = false) ∧
             (negYShadowFun ⟨1, 1, 1⟩ (fun _ => true) c = false ∨
              posYShadowFun ⟨1, 1, 1⟩ (fun _ => true) c = false) ∧
             (negZShadowFun ⟨1, 1, 1⟩ (fun _ => true) c = false ∨
              posZShadowFun ⟨1, 1, 1⟩ (fun _ => true) c = false))) →
            g c = 2147483647) ∧
          (¬(((negXShadowFun ⟨1, 1, 1⟩ (fun _ => true) c = false ∧
               posXShadowFun ⟨1, 1, 1⟩ (fun _ => true) c = false) ∨
              (negYShadowFun ⟨1, 1, 1⟩ (fun _ => true) c = false ∧
               posYShadowFun ⟨1, 1, 1⟩ (fun _ => true) c = false) ∨
              (negZShadowFun ⟨1, 1, 1⟩ (fun _ => true) c = false ∧
               posZShadowFun ⟨1, 1, 1⟩ (fun _ => true) c = false)) ∨
             ((negXShadowFun ⟨1, 1, 1⟩ (fun _ => true) c = false ∨
               posXShadowFun ⟨1, 1, 1⟩ (fun _ => true) c = false) ∧
              (negYShadowFun ⟨1, 1, 1⟩ (fun _ => true) c = false ∨
               posYShadowFun ⟨1, 1, 1⟩ (fun _ => true) c = false) ∧
              (negZShadowFun ⟨1, 1, 1⟩ (fun _ => true) c = false ∨
               posZShadowFun ⟨1, 1, 1⟩ (fun _ => true) c = false))) →
            g c = -2147483648)) :=
  c2_interior_exterior_values
    ⟨⟨1, 1, 1⟩, fun n => if n = "Boundary" then some (GridData.boolG fun _ => true) else none⟩
    (fun _ => true) rfl

/-- C8: on return of `generateInteriorExteriorVoxelGrid` (started from a
state in which no shadow grid exists), none of the six transient shadow
grids is present, the `"InteriorExterior"` entry holds the
classification, and every other entry of the map — in particular
`"Boundary"`, content included — equals its state before the call. -/
theorem c8_transient_shadows_discarded (s : VoxelGrid) (bnd : Vec3i → Bool)
    (h : s.grids "Boundary" = some (GridData.boolG bnd))
    (h1 : s.grids "negXShadow" = none) (h2 : s.grids "posXShadow" = none)
    (h3 : s.grids "negYShadow" = none) (h4 : s.grids "posYShadow" = none)
    (h5 : s.grids "negZShadow" = none) (h6 : s.grids "posZShadow" = none) :
    ∃ s', generateInteriorExteriorVoxelGrid s = some s' ∧
      s'.grids "negXShadow" = none ∧ s'.grids "posXShadow" = none ∧
      s'.grids "negYShadow" = none ∧ s'.grids "posYShadow" = none ∧
      s'.grids "negZShadow" = none ∧ s'.grids "posZShadow" = none ∧
      s'.grids "InteriorExterior" = some (GridData.intG (intExtFun s.dims bnd)) ∧
      ∀ n, n ≠ "InteriorExterior" → s'.grids n = s.grids n := by
  obtain ⟨s', hrun, -, hie, g1, g2, g3, g4, g5, g6, hframe⟩ := genIE_spec h
  refine ⟨s', hrun, g1, g2, g3, g4, g5, g6, hie, ?_⟩
  intro n hn
  by_cases e1 : n = "negXShadow"
  · rw [e1, g1, h1]
  · by_cases e2 : n = "posXShadow"
    · rw [e2, g2, h2]
    · by_cases e3 : n = "negYShadow"
      · rw [e3, g3, h3]
      · by_cases e4 : n = "posYShadow"
        · rw [e4, g4, h4]
        · by_cases e5 : n = "negZShadow"
          · rw [e5, g5, h5]
          · by_cases e6 : n = "posZShadow"
            · rw [e6, g6, h6]
            · exact hframe n hn e1 e2 e3 e4 e5 e6

/-- C8 (witness): the frame property on a 1×1×1 grid holding only the
boundary grid. -/
theorem c8_witness :
    ∃ s', generateInteriorExteriorVoxelGrid
        ⟨⟨1, 1, 1⟩, fun n => if n = "Boundary" then some (GridData.boolG fun _ => false) else none⟩
        = some s' ∧
      s'.grids "negXShadow" = none ∧ s'.grids "posXShadow" = none ∧
      s'.grids "negYShadow" = none ∧ s'.grids "posYShadow" = none ∧
      s'.grids "negZShadow" = none ∧ s'.grids "posZShadow" = none ∧
      s'.grids "InteriorExterior" = some (GridData.intG (intExtFun ⟨1, 1, 1⟩ fun _ => false)) ∧
      ∀ n, n ≠ "InteriorExterior" →
        s'.grids n =
          (fun n => if n = "Boundary" then some (GridData.boolG fun _ => false) else none) n :=
  c8_transient_shadows_discarded
    ⟨⟨1, 1, 1⟩, fun n => if n = "Boundary" then some (GridData.boolG fun _ => false) else none⟩
    (fun _ => false) rfl rfl rfl rfl rfl rfl rfl

/-- C9: every valid cell of the generated `"InteriorExterior"` grid
holds one of `INT_MIN`, `0`, `INT_MAX`, and holds `0` exactly when the
`"Boundary"` grid is `true` there. -/
theorem c9_three_values (s : VoxelGrid) (bnd : Vec3i → Bool)
    (h : s.grids "Boundary" = some (GridData.boolG bnd)) :
    ∃ s' g, generateInteriorExteriorVoxelGrid s = some s' ∧
      s'.grids "InteriorExterior" = some (GridData.intG g) ∧
      ∀ c, isValidIndex s.dims c = true →
        (g c = -2147483648 ∨ g c = 0 ∨ g c = 2147483647) ∧ (g c = 0 ↔ bnd c = true) := by
  obtain ⟨s', hrun, -, hie, -⟩ := genIE_spec h
  refine ⟨s', intExtFun s.dims bnd, hrun, hie, ?_⟩
  intro c hv
  refine ⟨?_, intExtFun_eq_zero_iff hv⟩
  rw [intExtFun, if_pos hv]
  by_cases hb : bnd c = true
  · simp [hb]
  · rw [Bool.not_eq_true] at hb
    rw [hb]
    simp only [Bool.false_eq_true, if_false]
    split
    · right; right; rfl
    · left; rfl

/-- C9 (witness): the trichotomy on a 2×1×1 grid whose boundary is the
cell with `x = 0`. -/
theorem c9_witness :
    ∃ s' g, generateInteriorExteriorVoxelGrid
        ⟨⟨2, 1, 1⟩, fun n =>
          if n = "Boundary" then some (GridData.boolG fun c => decide (c.x = 0)) else none⟩
        = some s' ∧
      s'.grids "InteriorExterior" = some (GridData.intG g) ∧
      ∀ c, isValidIndex ⟨2, 1, 1⟩ c = true →
        (g c = -2147483648 ∨ g c = 0 ∨ g c = 2147483647) ∧
        (g c = 0 ↔ (fun c : Vec3i => decide (c.x = 0)) c = true) :=
  c9_three_values
    ⟨⟨2, 1, 1⟩, fun n =>
      if n = "Boundary" then some (GridData.boolG fun c => decide (c.x = 0)) else none⟩
    (fun c => decide (c.x = 0)) rfl

/-! ## The index codec: C3 and C10 -/

/-- C3 (code_bug evaluation): on a 2×3×4 grid the two round trips fail.
`hashVoxelIndex (1,0,0) = 12`, but `reverseHash 12 = (0,0,1)`: the
remainder by `dims[2]` — which recovers the z component, since z varies
fastest in the hash — is placed in the x slot of the result, so the
round trip returns the transposed coordinate `(z,y,x)`.  Likewise
`reverseHash 1 = (1,0,0)` and hashing that back gives `12`, not `1`. -/
theorem c3_roundtrip_eval :
    isValidIndex ⟨2, 3, 4⟩ (⟨1, 0, 0⟩ : Vec3i) = true ∧
    hashVoxelIndex ⟨2, 3, 4⟩ ⟨1, 0, 0⟩ = some 12 ∧
    reverseHash ⟨2, 3, 4⟩ 12 = some ⟨0, 0, 1⟩ ∧
    ((⟨0, 0, 1⟩ : Vec3i) ≠ (⟨1, 0, 0⟩ : Vec3i)) ∧
    (0 ≤ (1 : Int) ∧ (1 : Int) < gridSize ⟨2, 3, 4⟩) ∧
    reverseHash ⟨2, 3, 4⟩ 1 = some ⟨1, 0, 0⟩ ∧
    hashVoxelIndex ⟨2, 3, 4⟩ ⟨1, 0, 0⟩ ≠ some 1 := by
  decide

/-- C10: `reverseHash` checks only the upper bound `hash < gridSize()`;
every negative linear index passes that check (the grid size is a
product of non-negative dimensions), so the failure branch is not taken
and a coordinate computed from the negative value by truncated division
and remainder is returned. -/
theorem c10_negative_reverseHash (d : Dims3) (h : Int) (hneg : h < 0) :
    reverseHash d h =
      some ⟨h.tmod (d.z : Int), (h.tdiv (d.z : Int)).tmod (d.y : Int),
            (h.tdiv (d.z : Int)).tdiv (d.y : Int)⟩ := by
  have hsz : 0 ≤ gridSize d := by
    rw [gridSize]
    positivity
  rw [reverseHash, if_pos (by omega)]

/-- C10 (witness): `reverseHash (-5)` on a 2×3×4 grid does not fail and
returns `(-1,-1,0)`. -/
theorem c10_witness :
    reverseHash ⟨2, 3, 4⟩ (-5) = some ⟨-1, -1, 0⟩ :=
  c10_negative_reverseHash ⟨2, 3, 4⟩ (-5) (by decide)

/-! ## The range filter `generateBoolGridFromIntGrid` -/

/-- `VoxelGrid::generateBoolGridFromIntGrid`: asserts the source exists
with kind `int` (first match), creates/overwrites the destination as a
zeroed bool grid (`addGrid`), re-reads the source through the updated
map (so a destination equal to the source destroys it — second match),
then sets every in-range cell to `true`, counting them.  Returns the
updated grid and the count. -/
def generateBoolGridFromIntGrid (s : VoxelGrid) (intGridName boolGridName : String)
    (startRange endRange : Int) : Option (VoxelGrid × Nat) :=
  match s.grids intGridName with
  | some (GridData.intG _) =>
    let m1 := gInsert s.grids boolGridName (GridData.boolG fun _ => false)
    match m1 intGridName with
    | some (GridData.intG f) =>
      some ({ s with grids := gInsert m1 boolGridName (GridData.boolG fun c =>
          isValidIndex s.dims c && (decide (startRange ≤ f c) && decide (f c ≤ endRange))) },
        (cellList s.dims).countP fun c => decide (startRange ≤ f c) && decide (f c ≤ endRange))
    | _ => none
  | _ => none

/-- C7: with an existing Integer source grid and a distinct destination
name, `generateBoolGridFromIntGrid` creates a Boolean destination that
is `true` at a valid cell exactly when the source value lies in the
inclusive range, and returns the number of cells set to `true`. -/
theorem c7_bool_from_int_range (s : VoxelGrid) (src dst : String) (lo hi : Int)
    (f : Vec3i → Int) (hsrc : s.grids src = some (GridData.intG f)) (hne : dst ≠ src) :
    ∃ s' n g, generateBoolGridFromIntGrid s src dst lo hi = some (s', n) ∧
      s'.grids dst = some (GridData.boolG g) ∧
      (∀ c, isValidIndex s.dims c = true → (g c = true ↔ lo ≤ f c ∧ f c ≤ hi)) ∧
      n = (cellList s.dims).countP fun c => g c := by
  have hm1 : gInsert s.grids dst (GridData.boolG fun _ => false) src
      = some (GridData.intG f) := by
    rw [gInsert, if_neg (Ne.symm hne), hsrc]
  rw [generateBoolGridFromIntGrid, hsrc]
  simp only [hm1]
  refine ⟨_, _, fun c => isValidIndex s.dims c && (decide (lo ≤ f c) && decide (f c ≤ hi)),
    rfl, by simp [gInsert], ?_, ?_⟩
  · intro c hv
    simp [hv]
  · refine (List.countP_congr ?_).symm
    intro c hc
    have hv := mem_cellList.mp hc
    simp [hv]

/-- C7 (witness): the range filter applied on a 1×1×2 grid whose source
grid holds the z coordinate, keeping the range `[0,0]`. -/
theorem c7_witness :
    ∃ s' n g,
      generateBoolGridFromIntGrid
        ⟨⟨1, 1, 2⟩, fun m => if m = "I" then some (GridData.intG fun c => c.z) else none⟩
        "I" "B" 0 0 = some (s', n) ∧
      s'.grids "B" = some (GridData.boolG g) ∧
      (∀ c, isValidIndex ⟨1, 1, 2⟩ c = true →
        (g c = true ↔ 0 ≤ (fun c : Vec3i => c.z) c ∧ (fun c : Vec3i => c.z) c ≤ 0)) ∧
      n = (cellList ⟨1, 1, 2⟩).countP fun c => g c :=
  c7_bool_from_int_range
    ⟨⟨1, 1, 2⟩, fun m => if m = "I" then some (GridData.intG fun c => c.z) else none⟩
    "I" "B" 0 0 (fun c => c.z) rfl (by decide)

/-! ## The Manhattan distance SDF

The two sweeps of `generateManhattanDistanceSDF` write into the linear
buffer of the `StridedArrayView3D`; the buffer is modelled as a
`List Int` in linear-index order (`hashRaw`, z fastest).  The forward
sweep visits cells in ascending linear order and reads the three
"behind" neighbours, which were already rewritten during the same
sweep; the backward sweep is symmetric.  `tableRun`/`tableRunRev` drive
a step function over the cells, growing the list of already-rewritten
values. -/

/-- The linear buffer index of a (valid) coordinate. -/
def linIdx (d : Dims3) (c : Vec3i) : Nat := (hashRaw d c).toNat

/-- The C++ sign idiom `(v > 0) - (v < 0)`. -/
def intSign (v : Int) : Int := (if 0 < v then 1 else 0) - (if v < 0 then 1 else 0)

/-- A neighbour magnitude `abs(std::max(v, -2147483646))`. -/
def magNb (v : Int) : Int := ((max v (-2147483646)).natAbs : Int)

/-- The own magnitude `abs(std::max(curVal, -2147483647))`. -/
def magCur (v : Int) : Int := ((max v (-2147483647)).natAbs : Int)

/-- Forward driver: process the cells in order, appending each newly
written value to the accumulator of already-written values. -/
def tableRun (step : List Int → Vec3i → Int) : List Int → List Vec3i → List Int
  | acc, [] => acc
  | acc, c :: rest => tableRun step (acc ++ [step acc c]) rest

/-- Backward driver: process the cells in descending order, prepending
each newly written value (the accumulator holds the values of all
higher linear indices). -/
def tableRunRev (step : List Int → Vec3i → Int) : List Int → List Vec3i → List Int
  | acc, [] => acc
  | acc, c :: rest => tableRunRev step (step acc c :: acc) rest

/-- One cell of the first (forward) Manhattan sweep: the three "behind"
neighbour magnitudes (out of range ↦ `INT_MAX`), the closest of them
(ties resolved by the source's `if`/`else if` chain), the overflow guard
`if (closest == INT_MAX) closest--`, and the re-signed minimum.  The
`acc` holds the values already rewritten in this sweep — all three
"behind" cells are among them — and `old` the values the copy loop
produced. -/
def sweep1Step (d : Dims3) (old : List Int) (acc : List Int) (c : Vec3i) : Int :=
  let iB := if isValidIndex d ⟨c.x - 1, c.y, c.z⟩
    then magNb (acc.getD (linIdx d ⟨c.x - 1, c.y, c.z⟩) 0) else 2147483647
  let jB := if isValidIndex d ⟨c.x, c.y - 1, c.z⟩
    then magNb (acc.getD (linIdx d ⟨c.x, c.y - 1, c.z⟩) 0) else 2147483647
  let kB := if isValidIndex d ⟨c.x, c.y, c.z - 1⟩
    then magNb (acc.getD (linIdx d ⟨c.x, c.y, c.z - 1⟩) 0) else 2147483647
  let curVal := old.getD (linIdx d c) 0
  let closest := if iB ≤ jB ∧ iB ≤ kB then iB
    else if jB ≤ iB ∧ jB ≤ kB then jB
    else kB
  let closest2 := if closest = 2147483647 then closest - 1 else closest
  intSign curVal * min (magCur curVal) (closest2 + 1)

/-- One cell of the second (backward) Manhattan sweep: boundary cells
(`curVal == 0`) are skipped (`continue`), i.e. keep their value; the
three "ahead" neighbours were already rewritten in this sweep and sit in
the accumulator at offset `linIdx(neighbour) - linIdx(cell) - 1`. -/
def sweep2Step (d : Dims3) (g1 : List Int) (acc : List Int) (c : Vec3i) : Int :=
  let n := linIdx d c
  let curVal := g1.getD n 0
  if curVal = 0 then curVal
  else
    let iA := if isValidIndex d ⟨c.x + 1, c.y, c.z⟩
      then magNb (acc.getD (linIdx d ⟨c.x + 1, c.y, c.z⟩ - n - 1) 0) else 2147483647
    let jA := if isValidIndex d ⟨c.x, c.y + 1, c.z⟩
      then magNb (acc.getD (linIdx d ⟨c.x, c.y + 1, c.z⟩ - n - 1) 0) else 2147483647
    let kA := if isValidIndex d ⟨c.x, c.y, c.z + 1⟩
      then magNb (acc.getD (linIdx d ⟨c.x, c.y, c.z + 1⟩ - n - 1) 0) else 2147483647
    let closest := if iA ≤ jA ∧ iA ≤ kA then iA
      else if jA ≤ iA ∧ jA ≤ kA then jA
      else kA
    let closest2 := if closest = 2147483647 then closest - 1 else closest
    intSign curVal * min (magCur curVal) (closest2 + 1)

/-- The buffer after the forward sweep. -/
def sweep1List (d : Dims3) (old : List Int) : List Int :=
  tableRun (sweep1Step d old) [] (cellList d)

/-- The buffer after the backward sweep. -/
def sweep2List (d : Dims3) (g1 : List Int) : List Int :=
  tableRunRev (sweep2Step d g1) [] (cellListDesc d)

/-- The grid `generateManhattanDistanceSDF` writes: copy of the
`"InteriorExterior"` values (the copy loop), forward sweep, backward
sweep. -/
def manhattanFromIE (d : Dims3) (ie : Vec3i → Int) : Vec3i → Int :=
  fun c =>
    if isValidIndex d c then
      (sweep2List d (sweep1List d ((cellList d).map ie))).getD (linIdx d c) 0
    else 0

/-- `VoxelGrid::generateManhattanDistanceSDF`: generates
`"InteriorExterior"` first when absent, zero-creates the target grid
(`addGrid<int>(gridName)`), then re-reads the classification through the
updated map (a target name equal to `"InteriorExterior"` zeroes it) and
runs the copy and the two sweeps. -/
def generateManhattanDistanceSDF (s : VoxelGrid) (gridName : String) : Option VoxelGrid :=
  match (if (s.grids "InteriorExterior").isSome then some s
         else generateInteriorExteriorVoxelGrid s) with
  | none => none
  | some s1 =>
    let m1 := gInsert s1.grids gridName (GridData.intG fun _ => 0)
    match m1 "InteriorExterior" with
    | some (GridData.intG ie) =>
      some { s1 with grids := gInsert m1 gridName (GridData.intG (manhattanFromIE s1.dims ie)) }
    | _ => none

theorem take_succ_getD : ∀ (L : List Int) (n : Nat), n < L.length →
    L.take (n + 1) = L.take n ++ [L.getD n 0]
  | _ :: _, 0, _ => rfl
  | a :: t, n + 1, h => by
    have ih := take_succ_getD t n (by simpa using Nat.lt_of_succ_lt_succ (by simpa using h))
    simp only [List.take_succ_cons, List.getD_cons_succ, ih, List.cons_append]

theorem drop_getD_cons : ∀ (L : List Int) (n : Nat), n < L.length →
    L.drop n = L.getD n 0 :: L.drop (n + 1)
  | _ :: _, 0, _ => rfl
  | a :: t, n + 1, h => by
    have ih := drop_getD_cons t n (Nat.lt_of_succ_lt_succ (by simpa using h))
    simpa using ih

/-- A forward sweep equals a claimed table `L` as soon as every single
step, fed the already-correct prefix of `L`, produces the corresponding
entry of `L`. -/
theorem tableRun_eq (step : List Int → Vec3i → Int) (L : List Int) :
    ∀ (cells : List Vec3i) (acc : List Int),
      acc.length + cells.length = L.length →
      acc = L.take acc.length →
      (∀ k, k < cells.length →
        step (L.take (acc.length + k)) (cells.getD k ⟨0, 0, 0⟩) = L.getD (acc.length + k) 0) →
      tableRun step acc cells = L := by
  intro cells
  induction cells with
  | nil =>
    intro acc hlen hacc _
    rw [tableRun]
    have hl : acc.length = L.length := by simpa using hlen
    rw [hl, List.take_length] at hacc
    exact hacc
  | cons c rest ih =>
    intro acc hlen hacc hstep
    rw [tableRun]
    have hlt : acc.length < L.length := by
      simp only [List.length_cons] at hlen; omega
    have hv : step acc c = L.getD acc.length 0 := by
      have h0 := hstep 0 (by simp)
      rw [List.getD_cons_zero, Nat.add_zero] at h0
      nth_rewrite 1 [hacc]
      exact h0
    apply ih
    · simp only [List.length_append, List.length_cons, List.length_nil] at hlen ⊢
      omega
    · rw [hv]
      have hthis := take_succ_getD L acc.length hlt
      rw [List.length_append, List.length_cons, List.length_nil]
      nth_rewrite 1 [hacc]
      simp only [Nat.zero_add]
      exact hthis.symm
    · intro k hk
      have h1 := hstep (k + 1) (by simp only [List.length_cons]; omega)
      rw [List.getD_cons_succ] at h1
      have e : acc.length + (k + 1) = (acc ++ [step acc c]).length + k := by
        simp only [List.length_append, List.length_cons, List.length_nil]; omega
      rw [e] at h1
      exact h1

/-- The backward analogue: the accumulator is the already-correct
suffix of `L`. -/
theorem tableRunRev_eq (step : List Int → Vec3i → Int) (L : List Int) :
    ∀ (cells : List Vec3i) (acc : List Int),
      acc.length + cells.length = L.length →
      acc = L.drop cells.length →
      (∀ k, k < cells.length →
        step (L.drop (cells.length - k)) (cells.getD k ⟨0, 0, 0⟩)
          = L.getD (cells.length - 1 - k) 0) →
      tableRunRev step acc cells = L := by
  intro cells
  induction cells with
  | nil =>
    intro acc _ hacc _
    rw [tableRunRev]
    simpa using hacc
  | cons c rest ih =>
    intro acc hlen hacc hstep
    rw [tableRunRev]
    have hrl : rest.length < L.length := by
      simp only [List.length_cons] at hlen; omega
    have hv : step acc c = L.getD rest.length 0 := by
      have h0 := hstep 0 (by simp)
      rw [List.getD_cons_zero] at h0
      simp only [List.length_cons, Nat.sub_zero] at h0
      have e : rest.length + 1 - 1 = rest.length := by omega
      rw [e] at h0
      rw [hacc]
      simp only [List.length_cons]
      exact h0
    apply ih
    · simp only [List.length_cons] at hlen
      simp only [List.length_cons]
      omega
    · rw [hv, hacc]
      simp only [List.length_cons]
      exact (drop_getD_cons L rest.length hrl).symm
    · intro k hk
      have h1 := hstep (k + 1) (by simp only [List.length_cons]; omega)
      rw [List.getD_cons_succ] at h1
      have e1 : (c :: rest).length - (k + 1) = rest.length - k := by
        simp only [List.length_cons]; omega
      have e2 : (c :: rest).length - 1 - (k + 1) = rest.length - 1 - k := by
        simp only [List.length_cons]; omega
      rw [e1, e2] at h1
      exact h1

/-! ## C4: Manhattan SDF on the 5×5×5 single-center-boundary grid -/

/-- The 5×5×5 grid whose `"Boundary"` grid is true only at `(2,2,2)`. -/
def singleCenterGrid : VoxelGrid :=
  ⟨⟨5, 5, 5⟩, fun n =>
    if n = "Boundary" then some (GridData.boolG fun c => decide (c = (⟨2, 2, 2⟩ : Vec3i)))
    else none⟩

/-- The classification values of `singleCenterGrid` in linear order (the
copy loop's source): exterior everywhere except `0` at the center. -/
def mL0 : List Int :=
  [2147483647, 2147483647, 2147483647, 2147483647, 2147483647, 2147483647, 2147483647, 2147483647, 2147483647, 2147483647, 2147483647, 2147483647, 2147483647, 2147483647, 2147483647, 2147483647, 2147483647, 2147483647, 2147483647, 2147483647, 2147483647, 2147483647, 2147483647, 2147483647, 2147483647, 2147483647, 2147483647, 2147483647, 2147483647, 2147483647, 2147483647, 2147483647, 2147483647, 2147483647, 2147483647, 2147483647, 2147483647, 2147483647, 2147483647, 2147483647, 2147483647, 2147483647, 2147483647, 2147483647, 2147483647, 2147483647, 2147483647, 2147483647, 2147483647, 2147483647, 2147483647, 2147483647, 2147483647, 2147483647, 2147483647, 2147483647, 2147483647, 2147483647, 2147483647, 2147483647, 2147483647, 2147483647, 0, 2147483647, 2147483647, 2147483647, 2147483647, 2147483647, 2147483647, 2147483647, 2147483647, 2147483647, 2147483647, 2147483647, 2147483647, 2147483647, 2147483647, 2147483647, 2147483647, 2147483647, 2147483647, 2147483647, 2147483647, 2147483647, 2147483647, 2147483647, 2147483647, 2147483647, 2147483647, 2147483647, 2147483647, 2147483647, 2147483647, 2147483647, 2147483647, 2147483647, 2147483647, 2147483647, 2147483647, 2147483647, 2147483647, 2147483647, 2147483647, 2147483647, 2147483647, 2147483647, 2147483647, 2147483647, 2147483647, 2147483647, 2147483647, 2147483647, 2147483647, 2147483647, 2147483647, 2147483647, 2147483647, 2147483647, 2147483647, 2147483647, 2147483647, 2147483647, 2147483647, 2147483647, 2147483647]

/-- The buffer after the forward sweep on `mL0`. -/
def mL1 : List Int :=
  [2147483647, 2147483647, 2147483647, 2147483647, 2147483647, 2147483647, 2147483647, 2147483647, 2147483647, 2147483647, 2147483647, 2147483647, 2147483647, 2147483647, 2147483647, 2147483647, 2147483647, 2147483647, 2147483647, 2147483647, 2147483647, 2147483647, 2147483647, 2147483647, 2147483647, 2147483647, 2147483647, 2147483647, 2147483647, 2147483647, 2147483647, 2147483647, 2147483647, 2147483647, 2147483647, 2147483647, 2147483647, 2147483647, 2147483647, 2147483647, 2147483647, 2147483647, 2147483647, 2147483647, 2147483647, 2147483647, 2147483647, 2147483647, 2147483647, 2147483647, 2147483647, 2147483647, 2147483647, 2147483647, 2147483647, 2147483647, 2147483647, 2147483647, 2147483647, 2147483647, 2147483647, 2147483647, 0, 1, 2, 2147483647, 2147483647, 1, 2, 3, 2147483647, 2147483647, 2, 3, 4, 2147483647, 2147483647, 2147483647, 2147483647, 2147483647, 2147483647, 2147483647, 2147483647, 2147483647, 2147483647, 2147483647, 2147483647, 1, 2, 3, 2147483647, 2147483647, 2, 3, 4, 2147483647, 2147483647, 3, 4, 5, 2147483647, 2147483647, 2147483647, 2147483647, 2147483647, 2147483647, 2147483647, 2147483647, 2147483647, 2147483647, 2147483647, 2147483647, 2, 3, 4, 2147483647, 2147483647, 3, 4, 5, 2147483647, 2147483647, 4, 5, 6]

/-- The buffer after the backward sweep on `mL1`: the exact Manhattan
distance to the center. -/
def mL2 : List Int :=
  [6, 5, 4, 5, 6, 5, 4, 3, 4, 5, 4, 3, 2, 3, 4, 5, 4, 3, 4, 5, 6, 5, 4, 5, 6, 5, 4, 3, 4, 5, 4, 3, 2, 3, 4, 3, 2, 1, 2, 3, 4, 3, 2, 3, 4, 5, 4, 3, 4, 5, 4, 3, 2, 3, 4, 3, 2, 1, 2, 3, 2, 1, 0, 1, 2, 3, 2, 1, 2, 3, 4, 3, 2, 3, 4, 5, 4, 3, 4, 5, 4, 3, 2, 3, 4, 3, 2, 1, 2, 3, 4, 3, 2, 3, 4, 5, 4, 3, 4, 5, 6, 5, 4, 5, 6, 5, 4, 3, 4, 5, 4, 3, 2, 3, 4, 5, 4, 3, 4, 5, 6, 5, 4, 5, 6]

set_option maxRecDepth 100000 in
theorem mL0_eq : (cellList ⟨5, 5, 5⟩).map
    (intExtFun ⟨5, 5, 5⟩ fun c => decide (c = (⟨2, 2, 2⟩ : Vec3i))) = mL0 := by
  decide

set_option maxRecDepth 100000 in
set_option maxHeartbeats 1000000 in
theorem mL1_eq : sweep1List ⟨5, 5, 5⟩ mL0 = mL1 := by
  apply tableRun_eq
  · decide
  · rfl
  · decide

set_option maxRecDepth 100000 in
set_option maxHeartbeats 1000000 in
theorem mL2_eq : sweep2List ⟨5, 5, 5⟩ mL1 = mL2 := by
  apply tableRunRev_eq
  · decide
  · decide
  · decide


/-- Net effect of `generateManhattanDistanceSDF` when the
classification grid is absent (the lazy path) and the target name is
fresh: the target holds the sweep result over the freshly generated
classification. -/
theorem genManhattan_spec {s : VoxelGrid} {bnd : Vec3i → Bool} {name : String}
    (hb : s.grids "Boundary" = some (GridData.boolG bnd))
    (hie : s.grids "InteriorExterior" = none)
    (hn1 : name ≠ "InteriorExterior") :
    ∃ s', generateManhattanDistanceSDF s name = some s' ∧
      s'.grids name = some (GridData.intG (manhattanFromIE s.dims (intExtFun s.dims bnd))) ∧
      s'.grids "InteriorExterior" = some (GridData.intG (intExtFun s.dims bnd)) := by
  obtain ⟨s1, hrun1, hdims, hie1, -⟩ := genIE_spec hb
  rw [generateManhattanDistanceSDF, hie]
  simp only [Option.isSome_none, Bool.false_eq_true, if_false]
  rw [hrun1]
  have hm1 : gInsert s1.grids name (GridData.intG fun _ => 0) "InteriorExterior"
      = some (GridData.intG (intExtFun s.dims bnd)) := by
    rw [gInsert, if_neg (Ne.symm hn1)]
    exact hie1
  simp only [hm1]
  refine ⟨_, rfl, ?_, ?_⟩
  · simp [gInsert, hdims]
  · simp only [gInsert, if_neg (Ne.symm hn1)]
    exact hie1

set_option maxRecDepth 100000 in
/-- C4: running `generateManhattanDistanceSDF` on the 5×5×5 grid whose
only boundary voxel is the center `(2,2,2)`: the center holds `0`, its 6
face-neighbours hold absolute value `1`, its 12 edge-diagonal neighbours
hold absolute value `2` (the Manhattan metric), and the boundary cell
(classification value `0`) is modified by neither sweep — it still holds
`0` after the forward sweep and in the final grid. -/
theorem c4_manhattan_single_center :
    ∃ s' g gie,
      generateManhattanDistanceSDF singleCenterGrid "MSDF" = some s' ∧
      s'.grids "MSDF" = some (GridData.intG g) ∧
      s'.grids "InteriorExterior" = some (GridData.intG gie) ∧
      g ⟨2, 2, 2⟩ = 0 ∧
      (g ⟨1, 2, 2⟩).natAbs = 1 ∧ (g ⟨3, 2, 2⟩).natAbs = 1 ∧ (g ⟨2, 1, 2⟩).natAbs = 1 ∧
      (g ⟨2, 3, 2⟩).natAbs = 1 ∧ (g ⟨2, 2, 1⟩).natAbs = 1 ∧ (g ⟨2, 2, 3⟩).natAbs = 1 ∧
      (g ⟨1, 1, 2⟩).natAbs = 2 ∧ (g ⟨1, 3, 2⟩).natAbs = 2 ∧ (g ⟨3, 1, 2⟩).natAbs = 2 ∧
      (g ⟨3, 3, 2⟩).natAbs = 2 ∧ (g ⟨1, 2, 1⟩).natAbs = 2 ∧ (g ⟨1, 2, 3⟩).natAbs = 2 ∧
      (g ⟨3, 2, 1⟩).natAbs = 2 ∧ (g ⟨3, 2, 3⟩).natAbs = 2 ∧ (g ⟨2, 1, 1⟩).natAbs = 2 ∧
      (g ⟨2, 1, 3⟩).natAbs = 2 ∧ (g ⟨2, 3, 1⟩).natAbs = 2 ∧ (g ⟨2, 3, 3⟩).natAbs = 2 ∧
      gie ⟨2, 2, 2⟩ = 0 ∧
      (sweep1List ⟨5, 5, 5⟩ ((cellList ⟨5, 5, 5⟩).map gie)).getD
        (linIdx ⟨5, 5, 5⟩ ⟨2, 2, 2⟩) 0 = 0 ∧
      g ⟨2, 2, 2⟩ = 0 := by
  obtain ⟨s', hrun, hmsdf, hieg⟩ := @genManhattan_spec
    singleCenterGrid (fun c => decide (c = (⟨2, 2, 2⟩ : Vec3i)))
    "MSDF" rfl rfl (by decide)
  refine ⟨s', _, _, hrun, hmsdf, hieg, ?_⟩
  have hg : ∀ c, manhattanFromIE singleCenterGrid.dims
      (intExtFun singleCenterGrid.dims fun c => decide (c = (⟨2, 2, 2⟩ : Vec3i))) c
      = (if isValidIndex ⟨5, 5, 5⟩ c then mL2.getD (linIdx ⟨5, 5, 5⟩ c) 0 else 0) := by
    intro c
    show (if isValidIndex ⟨5, 5, 5⟩ c then
        (sweep2List ⟨5, 5, 5⟩ (sweep1List ⟨5, 5, 5⟩ ((cellList ⟨5, 5, 5⟩).map
          (intExtFun ⟨5, 5, 5⟩ fun c => decide (c = (⟨2, 2, 2⟩ : Vec3i)))))).getD
            (linIdx ⟨5, 5, 5⟩ c) 0
      else 0) = _
    rw [mL0_eq, mL1_eq, mL2_eq]
  have hs1 : (sweep1List ⟨5, 5, 5⟩ ((cellList ⟨5, 5, 5⟩).map
      (intExtFun singleCenterGrid.dims fun c => decide (c = (⟨2, 2, 2⟩ : Vec3i))))).getD
        (linIdx ⟨5, 5, 5⟩ ⟨2, 2, 2⟩) 0 = 0 := by
    show (sweep1List ⟨5, 5, 5⟩ ((cellList ⟨5, 5, 5⟩).map
      (intExtFun ⟨5, 5, 5⟩ fun c => decide (c = (⟨2, 2, 2⟩ : Vec3i))))).getD
        (linIdx ⟨5, 5, 5⟩ ⟨2, 2, 2⟩) 0 = 0
    rw [mL0_eq, mL1_eq]
    decide
  refine ⟨?_, ?_, ?_, ?_, ?_, ?_, ?_, ?_, ?_, ?_, ?_, ?_, ?_, ?_, ?_, ?_, ?_, ?_, ?_,
    by decide, hs1, ?_⟩
  all_goals rw [hg]
  all_goals decide


/-! ## The Euclidean distance SDF and the flow field

All vectors these code paths store in `Mn::Vector3` grids are
integer-valued (cell coordinates, the `2 * dims` sentinel, differences
of the two), and every float comparison the source makes compares
lengths `(u - coords).length() <= (v - coords).length()` of such
vectors; under exact real arithmetic that is equivalent to comparing the
squared lengths (the square root is strictly monotone on nonnegative
reals), which is the exact `Int` comparison the model performs.  A float
scalar written to the SDF grid is `sign * dist` and is modelled by the
exact pair `(sign, squared distance)`. -/

/-- Squared Euclidean distance of integer vectors. -/
def distSq (a b : Vec3i) : Int :=
  (a.x - b.x) * (a.x - b.x) + (a.y - b.y) * (a.y - b.y) + (a.z - b.z) * (a.z - b.z)

/-- Pointwise write into a coordinate-indexed `Vector3` buffer. -/
def updV (g : Vec3i → Vec3i) (c : Vec3i) (v : Vec3i) : Vec3i → Vec3i :=
  fun q => if q = c then v else g q

/-- Pointwise write into a coordinate-indexed float buffer. -/
def updP (g : Vec3i → Int × Int) (c : Vec3i) (v : Int × Int) : Vec3i → Int × Int :=
  fun q => if q = c then v else g q

/-- The far-away initial value `Mn::Vector3(m_voxelGridDimensions) * 2`. -/
def sentinel (d : Dims3) : Vec3i := ⟨2 * (d.x : Int), 2 * (d.y : Int), 2 * (d.z : Int)⟩

/-- The initialisation loop of `generateEuclideanDistanceSDF`: a cell
whose classification label is `0` points to itself, every other valid
cell to the sentinel; cells outside the loops keep the zero vector of
the freshly created grid. -/
def euclidInit (d : Dims3) (ie : Vec3i → Int) : Vec3i → Vec3i :=
  fun c => if isValidIndex d c then (if ie c = 0 then c else sentinel d) else ⟨0, 0, 0⟩

/-- One cell of the first Euclidean sweep: the three "behind" closest
cells (out of range ↦ sentinel), their distances and the current
distance to this cell, and the source's `if`/`else if` chain; when no
branch fires the cell keeps its closest cell. -/
def sweep1eStep (d : Dims3) (g : Vec3i → Vec3i) (c : Vec3i) : Vec3i → Vec3i :=
  let iB := if isValidIndex d ⟨c.x - 1, c.y, c.z⟩ then g ⟨c.x - 1, c.y, c.z⟩ else sentinel d
  let jB := if isValidIndex d ⟨c.x, c.y - 1, c.z⟩ then g ⟨c.x, c.y - 1, c.z⟩ else sentinel d
  let kB := if isValidIndex d ⟨c.x, c.y, c.z - 1⟩ then g ⟨c.x, c.y, c.z - 1⟩ else sentinel d
  let curD := distSq (g c) c
  let iD := distSq iB c
  let jD := distSq jB c
  let kD := distSq kB c
  if iD ≤ jD ∧ iD ≤ kD ∧ iD ≤ curD then updV g c iB
  else if jD ≤ iD ∧ jD ≤ kD ∧ jD ≤ curD then updV g c jB
  else if kD ≤ iD ∧ kD ≤ jD ∧ kD ≤ curD then updV g c kB
  else g

/-- The first Euclidean sweep (ascending cell order). -/
def sweep1e (d : Dims3) (g0 : Vec3i → Vec3i) : Vec3i → Vec3i :=
  (cellList d).foldl (sweep1eStep d) g0

/-- One cell of the second Euclidean sweep, updating the closest-cell
buffer and writing the signed distance (as a `(sign, squared distance)`
pair) in the same branch, exactly as the source does. -/
def sweep2eStep (d : Dims3) (ie : Vec3i → Int)
    (st : (Vec3i → Vec3i) × (Vec3i → Int × Int)) (c : Vec3i) :
    (Vec3i → Vec3i) × (Vec3i → Int × Int) :=
  let cst := st.1
  let sdf := st.2
  let iA := if isValidIndex d ⟨c.x + 1, c.y, c.z⟩ then cst ⟨c.x + 1, c.y, c.z⟩ else sentinel d
  let jA := if isValidIndex d ⟨c.x, c.y + 1, c.z⟩ then cst ⟨c.x, c.y + 1, c.z⟩ else sentinel d
  let kA := if isValidIndex d ⟨c.x, c.y, c.z + 1⟩ then cst ⟨c.x, c.y, c.z + 1⟩ else sentinel d
  let curD := distSq (cst c) c
  let sgn := intSign (ie c)
  let iD := distSq iA c
  let jD := distSq jA c
  let kD := distSq kA c
  if iD ≤ jD ∧ iD ≤ kD ∧ iD ≤ curD then (updV cst c iA, updP sdf c (sgn, iD))
  else if jD ≤ iD ∧ jD ≤ kD ∧ jD ≤ curD then (updV cst c jA, updP sdf c (sgn, jD))
  else if kD ≤ iD ∧ kD ≤ jD ∧ kD ≤ curD then (updV cst c kA, updP sdf c (sgn, kD))
  else (cst, updP sdf c (sgn, curD))

/-- The second Euclidean sweep (descending cell order). -/
def sweep2e (d : Dims3) (ie : Vec3i → Int)
    (st0 : (Vec3i → Vec3i) × (Vec3i → Int × Int)) :
    (Vec3i → Vec3i) × (Vec3i → Int × Int) :=
  (cellListDesc d).foldl (sweep2eStep d ie) st0

/-- `VoxelGrid::generateEuclideanDistanceSDF`: classify lazily when
`"InteriorExterior"` is absent, create `"ClosestBoundaryCell"`
(`addGrid<Mn::Vector3>`), initialise it, sweep forward, create the float
target grid (`addGrid<float>(gridName)` — a target named
`"ClosestBoundaryCell"` replaces the closest-cell buffer mid-run and a
target named `"InteriorExterior"` invalidates the classification view
the second sweep reads, both leaving dangling views: modelled as
failure), sweep backward writing the signed distances. -/
def generateEuclideanDistanceSDF (s : VoxelGrid) (gridName : String) : Option VoxelGrid :=
  match (if (s.grids "InteriorExterior").isSome then some s
         else generateInteriorExteriorVoxelGrid s) with
  | none => none
  | some s1 =>
    let m1 := gInsert s1.grids "ClosestBoundaryCell" (GridData.vec3G fun _ => ⟨0, 0, 0⟩)
    match m1 "InteriorExterior" with
    | some (GridData.intG ie) =>
      if gridName = "ClosestBoundaryCell" ∨ gridName = "InteriorExterior" then none
      else
        let st2 := sweep2e s1.dims ie (sweep1e s1.dims (euclidInit s1.dims ie), fun _ => (0, 0))
        let m2 := gInsert (gInsert m1 "ClosestBoundaryCell" (GridData.vec3G st2.1))
          gridName (GridData.floatG st2.2)
        some { s1 with grids := m2 }
    | _ => none

/-- The loop body of `generateDistanceFlowField`: each valid cell holds
its coordinate minus its closest boundary cell. -/
def flowFun (d : Dims3) (cst : Vec3i → Vec3i) : Vec3i → Vec3i :=
  fun c => if isValidIndex d c then vsub c (cst c) else ⟨0, 0, 0⟩

/-- `VoxelGrid::generateDistanceFlowField`: creates the target grid
(`addGrid`), then reads `"ClosestBoundaryCell"` through the updated map
— there is no lazy call of the Euclidean engine (it is commented out in
the source), so a missing or non-`Vector3` `"ClosestBoundaryCell"` is
the failure case. -/
def generateDistanceFlowField (s : VoxelGrid) (gridName : String) : Option VoxelGrid :=
  let m1 := gInsert s.grids gridName (GridData.vec3G fun _ => ⟨0, 0, 0⟩)
  match m1 "ClosestBoundaryCell" with
  | some (GridData.vec3G cst) =>
    some { s with grids := gInsert m1 gridName (GridData.vec3G (flowFun s.dims cst)) }
  | _ => none


theorem distSq_nonneg (a b : Vec3i) : 0 ≤ distSq a b := by
  unfold distSq
  have n1 := mul_self_nonneg (a.x - b.x)
  have n2 := mul_self_nonneg (a.y - b.y)
  have n3 := mul_self_nonneg (a.z - b.z)
  linarith

theorem distSq_self (a : Vec3i) : distSq a a = 0 := by
  simp [distSq]

theorem distSq_eq_zero {a b : Vec3i} (h : distSq a b = 0) : a = b := by
  unfold distSq at h
  have n1 := mul_self_nonneg (a.x - b.x)
  have n2 := mul_self_nonneg (a.y - b.y)
  have n3 := mul_self_nonneg (a.z - b.z)
  have e1 : (a.x - b.x) * (a.x - b.x) = 0 := by linarith
  have e2 : (a.y - b.y) * (a.y - b.y) = 0 := by linarith
  have e3 : (a.z - b.z) * (a.z - b.z) = 0 := by linarith
  have hx : a.x = b.x := by have := mul_self_eq_zero.mp e1; omega
  have hy : a.y = b.y := by have := mul_self_eq_zero.mp e2; omega
  have hz : a.z = b.z := by have := mul_self_eq_zero.mp e3; omega
  obtain ⟨ax, ay, az⟩ := a
  obtain ⟨bx, by', bz⟩ := b
  simp only [mk_x, mk_y, mk_z] at hx hy hz
  rw [hx, hy, hz]

theorem foldl_pres {α β : Type} {P : α → Prop} {f : α → β → α}
    (hf : ∀ g c, P g → P (f g c)) :
    ∀ (l : List β) (g : α), P g → P (l.foldl f g) := by
  intro l
  induction l with
  | nil => intro g hg; exact hg
  | cons c rest ih => intro g hg; exact ih (f g c) (hf g c hg)

/-- Cells whose classification label is `0` keep themselves as closest
boundary cell. -/
def BndFixed (d : Dims3) (ie : Vec3i → Int) (g : Vec3i → Vec3i) : Prop :=
  ∀ b, isValidIndex d b = true → ie b = 0 → g b = b

theorem euclidInit_bndFixed (d : Dims3) (ie : Vec3i → Int) :
    BndFixed d ie (euclidInit d ie) := by
  intro b hv h0
  rw [euclidInit]
  rw [if_pos hv, if_pos h0]

theorem sweep1eStep_bndFixed {d : Dims3} {ie : Vec3i → Int} {g : Vec3i → Vec3i} (c : Vec3i)
    (hP : BndFixed d ie g) : BndFixed d ie (sweep1eStep d g c) := by
  intro b hv h0
  have hgb : g b = b := hP b hv h0
  rw [sweep1eStep]
  by_cases hbc : b = c
  · subst hbc
    simp only [apply_ite (fun (f : Vec3i → Vec3i) => f b), updV, if_pos rfl, hgb, distSq_self]
    generalize (if isValidIndex d ⟨b.x - 1, b.y, b.z⟩ = true
      then g ⟨b.x - 1, b.y, b.z⟩ else sentinel d) = iB
    generalize (if isValidIndex d ⟨b.x, b.y - 1, b.z⟩ = true
      then g ⟨b.x, b.y - 1, b.z⟩ else sentinel d) = jB
    generalize (if isValidIndex d ⟨b.x, b.y, b.z - 1⟩ = true
      then g ⟨b.x, b.y, b.z - 1⟩ else sentinel d) = kB
    split_ifs with h1 h2 h3
    · exact distSq_eq_zero (le_antisymm h1.2.2 (distSq_nonneg iB b))
    · exact distSq_eq_zero (le_antisymm h2.2.2 (distSq_nonneg jB b))
    · exact distSq_eq_zero (le_antisymm h3.2.2 (distSq_nonneg kB b))
    · rfl
  · simp only [apply_ite (fun (f : Vec3i → Vec3i) => f b), updV, if_neg hbc, ite_self]
    exact hgb

theorem sweep1e_bndFixed {d : Dims3} {ie : Vec3i → Int} {g0 : Vec3i → Vec3i}
    (h0 : BndFixed d ie g0) : BndFixed d ie (sweep1e d g0) :=
  foldl_pres (fun g c hg => sweep1eStep_bndFixed c hg) (cellList d) g0 h0

theorem sweep2eStep_bndFixed {d : Dims3} {ie : Vec3i → Int}
    {st : (Vec3i → Vec3i) × (Vec3i → Int × Int)} (c : Vec3i)
    (hP : BndFixed d ie st.1) : BndFixed d ie (sweep2eStep d ie st c).1 := by
  intro b hv h0
  have hgb : st.1 b = b := hP b hv h0
  rw [sweep2eStep]
  by_cases hbc : b = c
  · subst hbc
    simp only [apply_ite (fun (p : (Vec3i → Vec3i) × (Vec3i → Int × Int)) => p.1),
      apply_ite (fun (f : Vec3i → Vec3i) => f b), updV, if_pos rfl, hgb, distSq_self]
    generalize (if isValidIndex d ⟨b.x + 1, b.y, b.z⟩ = true
      then st.1 ⟨b.x + 1, b.y, b.z⟩ else sentinel d) = iA
    generalize (if isValidIndex d ⟨b.x, b.y + 1, b.z⟩ = true
      then st.1 ⟨b.x, b.y + 1, b.z⟩ else sentinel d) = jA
    generalize (if isValidIndex d ⟨b.x, b.y, b.z + 1⟩ = true
      then st.1 ⟨b.x, b.y, b.z + 1⟩ else sentinel d) = kA
    split_ifs with h1 h2 h3
    · exact distSq_eq_zero (le_antisymm h1.2.2 (distSq_nonneg iA b))
    · exact distSq_eq_zero (le_antisymm h2.2.2 (distSq_nonneg jA b))
    · exact distSq_eq_zero (le_antisymm h3.2.2 (distSq_nonneg kA b))
    · rfl
  · simp only [apply_ite (fun (p : (Vec3i → Vec3i) × (Vec3i → Int × Int)) => p.1),
      apply_ite (fun (f : Vec3i → Vec3i) => f b), updV, if_neg hbc, ite_self]
    exact hgb

theorem sweep2e_bndFixed {d : Dims3} {ie : Vec3i → Int}
    {st0 : (Vec3i → Vec3i) × (Vec3i → Int × Int)}
    (h0 : BndFixed d ie st0.1) : BndFixed d ie (sweep2e d ie st0).1 :=
  foldl_pres (P := fun st => BndFixed d ie st.1)
    (fun st c hst => sweep2eStep_bndFixed c hst) (cellListDesc d) st0 h0

/-- The signed-distance entry of a cell agrees with its closest-cell
entry. -/
def Consist (ie : Vec3i → Int) (st : (Vec3i → Vec3i) × (Vec3i → Int × Int))
    (c : Vec3i) : Prop :=
  st.2 c = (intSign (ie c), distSq (st.1 c) c)

theorem sweep2eStep_consist_self {d : Dims3} {ie : Vec3i → Int}
    (st : (Vec3i → Vec3i) × (Vec3i → Int × Int)) (c : Vec3i) :
    Consist ie (sweep2eStep d ie st c) c := by
  rw [sweep2eStep, Consist]
  split_ifs <;> simp [updV, updP]

theorem sweep2eStep_consist_other {d : Dims3} {ie : Vec3i → Int}
    {st : (Vec3i → Vec3i) × (Vec3i → Int × Int)} {p : Vec3i} (c : Vec3i)
    (hne : p ≠ c) (h : Consist ie st p) : Consist ie (sweep2eStep d ie st c) p := by
  rw [Consist] at h
  rw [sweep2eStep, Consist]
  split_ifs <;> simpa [updV, updP, hne] using h

theorem sweep2e_foldl_consist {d : Dims3} {ie : Vec3i → Int} :
    ∀ (l : List Vec3i) (st : (Vec3i → Vec3i) × (Vec3i → Int × Int)) (p : Vec3i),
      (Consist ie st p ∨ p ∈ l) → Consist ie (l.foldl (sweep2eStep d ie) st) p := by
  intro l
  induction l with
  | nil =>
    intro st p hp
    rcases hp with h | h
    · exact h
    · exact absurd h (List.not_mem_nil p)
  | cons c rest ih =>
    intro st p hp
    rw [List.foldl_cons]
    apply ih
    by_cases hpc : p = c
    · subst hpc
      exact Or.inl (sweep2eStep_consist_self st p)
    · rcases hp with h | h
      · exact Or.inl (sweep2eStep_consist_other c hpc h)
      · rcases List.mem_cons.mp h with h' | h'
        · exact absurd h' hpc
        · exact Or.inr h'

theorem sweep2e_consist {d : Dims3} {ie : Vec3i → Int}
    (st0 : (Vec3i → Vec3i) × (Vec3i → Int × Int)) {p : Vec3i}
    (hp : isValidIndex d p = true) : Consist ie (sweep2e d ie st0) p :=
  sweep2e_foldl_consist (cellListDesc d) st0 p (Or.inr (mem_cellListDesc.mpr hp))


/-- Net effect of `generateEuclideanDistanceSDF` on the lazy path
(classification absent, fresh target name): the retained
`"ClosestBoundaryCell"` grid and the float grid are consistent at every
valid cell, and boundary-labelled cells point to themselves with
distance `0`. -/
theorem genEuclid_spec {s : VoxelGrid} {bnd : Vec3i → Bool} {name : String}
    (hb : s.grids "Boundary" = some (GridData.boolG bnd))
    (hie : s.grids "InteriorExterior" = none)
    (hn1 : name ≠ "ClosestBoundaryCell") (hn2 : name ≠ "InteriorExterior") :
    ∃ s' cst sdf,
      generateEuclideanDistanceSDF s name = some s' ∧
      s'.dims = s.dims ∧
      s'.grids "InteriorExterior" = some (GridData.intG (intExtFun s.dims bnd)) ∧
      s'.grids "ClosestBoundaryCell" = some (GridData.vec3G cst) ∧
      s'.grids name = some (GridData.floatG sdf) ∧
      (∀ c, isValidIndex s.dims c = true →
        sdf c = (intSign (intExtFun s.dims bnd c), distSq (cst c) c)) ∧
      (∀ b, isValidIndex s.dims b = true → bnd b = true → cst b = b ∧ sdf b = (0, 0)) := by
  obtain ⟨s1, hrun1, hdims, hie1, -⟩ := genIE_spec hb
  rw [generateEuclideanDistanceSDF, hie]
  simp only [Option.isSome_none, Bool.false_eq_true, if_false]
  rw [hrun1]
  have hm1 : gInsert s1.grids "ClosestBoundaryCell" (GridData.vec3G fun _ => ⟨0, 0, 0⟩)
      "InteriorExterior" = some (GridData.intG (intExtFun s.dims bnd)) := by
    rw [gInsert, if_neg (by decide)]
    exact hie1
  simp only [hm1]
  rw [if_neg (by simp [hn1, hn2]), hdims]
  refine ⟨_,
    (sweep2e s.dims (intExtFun s.dims bnd)
      (sweep1e s.dims (euclidInit s.dims (intExtFun s.dims bnd)), fun _ => (0, 0))).1,
    (sweep2e s.dims (intExtFun s.dims bnd)
      (sweep1e s.dims (euclidInit s.dims (intExtFun s.dims bnd)), fun _ => (0, 0))).2,
    rfl, rfl, ?_, ?_, ?_, ?_, ?_⟩
  · simp only [gInsert, if_neg (Ne.symm hn2), if_neg (show "InteriorExterior" ≠
      "ClosestBoundaryCell" by decide)]
    exact hm1
  · simp [gInsert, Ne.symm hn1]
  · simp [gInsert]
  · intro c hv
    have hcons := @sweep2e_consist s.dims (intExtFun s.dims bnd)
      (sweep1e s.dims (euclidInit s.dims (intExtFun s.dims bnd)), fun _ => (0, 0)) c hv
    rw [Consist] at hcons
    exact hcons
  · intro b hv hbnd
    have h0 : intExtFun s.dims bnd b = 0 := (intExtFun_eq_zero_iff hv).mpr hbnd
    have hfix : BndFixed s.dims (intExtFun s.dims bnd)
        (sweep2e s.dims (intExtFun s.dims bnd)
          (sweep1e s.dims (euclidInit s.dims (intExtFun s.dims bnd)), fun _ => (0, 0))).1 :=
      @sweep2e_bndFixed s.dims (intExtFun s.dims bnd)
        (sweep1e s.dims (euclidInit s.dims (intExtFun s.dims bnd)), fun _ => (0, 0))
        (sweep1e_bndFixed (euclidInit_bndFixed s.dims (intExtFun s.dims bnd)))
    have hcst : (sweep2e s.dims (intExtFun s.dims bnd)
        (sweep1e s.dims (euclidInit s.dims (intExtFun s.dims bnd)), fun _ => (0, 0))).1 b = b :=
      hfix b hv h0
    refine ⟨hcst, ?_⟩
    have hcons := @sweep2e_consist s.dims (intExtFun s.dims bnd)
      (sweep1e s.dims (euclidInit s.dims (intExtFun s.dims bnd)), fun _ => (0, 0)) b hv
    rw [Consist] at hcons
    rw [hcons, hcst, h0, distSq_self]
    rfl

/-- C5: after `generateEuclideanDistanceSDF(name)` (run with the
classification grid absent, so it is generated internally), every valid
cell of the float grid `name` holds the sign of its classification times
the Euclidean distance to the coordinate stored in the retained
`"ClosestBoundaryCell"` grid (a float value `sign * dist` is the exact
pair `(sign, squared distance)`); the closest-cell field is initialised
with boundary cells pointing to themselves and all other cells pointing
to the sentinel twice the grid extent away; and at every boundary cell
the final `"ClosestBoundaryCell"` value is the cell's own coordinate and
the SDF value is `0`. -/
theorem c5_euclidean_sdf (s : VoxelGrid) (bnd : Vec3i → Bool) (name : String)
    (hb : s.grids "Boundary" = some (GridData.boolG bnd))
    (hie : s.grids "InteriorExterior" = none)
    (hn1 : name ≠ "ClosestBoundaryCell") (hn2 : name ≠ "InteriorExterior") :
    ∃ s' cst sdf,
      generateEuclideanDistanceSDF s name = some s' ∧
      s'.grids "InteriorExterior" = some (GridData.intG (intExtFun s.dims bnd)) ∧
      s'.grids "ClosestBoundaryCell" = some (GridData.vec3G cst) ∧
      s'.grids name = some (GridData.floatG sdf) ∧
      (∀ c, isValidIndex s.dims c = true →
        sdf c = (intSign (intExtFun s.dims bnd c), distSq (cst c) c)) ∧
      (∀ c, isValidIndex s.dims c = true →
        (bnd c = true → euclidInit s.dims (intExtFun s.dims bnd) c = c) ∧
        (bnd c = false → euclidInit s.dims (intExtFun s.dims bnd) c = sentinel s.dims)) ∧
      (∀ b, isValidIndex s.dims b = true → bnd b = true → cst b = b ∧ sdf b = (0, 0)) := by
  obtain ⟨s', cst, sdf, hrun, -, hieL, hcstL, hnameL, hcons, hbd⟩ :=
    genEuclid_spec hb hie hn1 hn2
  refine ⟨s', cst, sdf, hrun, hieL, hcstL, hnameL, hcons, ?_, hbd⟩
  intro c hv
  constructor
  · intro hbnd
    have h0 : intExtFun s.dims bnd c = 0 := (intExtFun_eq_zero_iff hv).mpr hbnd
    rw [euclidInit, if_pos hv, if_pos h0]
  · intro hbnd
    have h0 : ¬(intExtFun s.dims bnd c = 0) := by
      rw [intExtFun_eq_zero_iff hv, hbnd]
      simp
    rw [euclidInit, if_pos hv, if_neg h0]

/-- C5 (witness): the Euclidean engine on the 1×1×1 all-boundary grid. -/
theorem c5_witness :
    ∃ s' cst sdf,
      generateEuclideanDistanceSDF
        ⟨⟨1, 1, 1⟩, fun n => if n = "Boundary" then some (GridData.boolG fun _ => true) else none⟩
        "ESDF" = some s' ∧
      s'.grids "InteriorExterior"
        = some (GridData.intG (intExtFun ⟨1, 1, 1⟩ fun _ => true)) ∧
      s'.grids "ClosestBoundaryCell" = some (GridData.vec3G cst) ∧
      s'.grids "ESDF" = some (GridData.floatG sdf) ∧
      (∀ c, isValidIndex ⟨1, 1, 1⟩ c = true →
        sdf c = (intSign (intExtFun ⟨1, 1, 1⟩ (fun _ => true) c), distSq (cst c) c)) ∧
      (∀ c, isValidIndex ⟨1, 1, 1⟩ c = true →
        ((fun _ : Vec3i => true) c = true →
          euclidInit ⟨1, 1, 1⟩ (intExtFun ⟨1, 1, 1⟩ fun _ => true) c = c) ∧
        ((fun _ : Vec3i => true) c = false →
          euclidInit ⟨1, 1, 1⟩ (intExtFun ⟨1, 1, 1⟩ fun _ => true) c = sentinel ⟨1, 1, 1⟩)) ∧
      (∀ b, isValidIndex ⟨1, 1, 1⟩ b = true → (fun _ : Vec3i => true) b = true →
        cst b = b ∧ sdf b = (0, 0)) :=
  c5_euclidean_sdf
    ⟨⟨1, 1, 1⟩, fun n => if n = "Boundary" then some (GridData.boolG fun _ => true) else none⟩
    (fun _ => true) "ESDF" rfl rfl (by decide) (by decide)


/-- C6: given a state the Euclidean engine produced (so the retained
`"ClosestBoundaryCell"` grid exists), `generateDistanceFlowField(name)`
writes `cellCoord - closestBoundaryCell` into the `Vector3` grid `name`
at every valid cell, which is exactly the zero vector at every boundary
cell; and on any state in which `"ClosestBoundaryCell"` is absent the
operation fails instead of lazily invoking the Euclidean engine. -/
theorem c6_flow_field (s : VoxelGrid) (bnd : Vec3i → Bool) (nameE nameF : String)
    (hb : s.grids "Boundary" = some (GridData.boolG bnd))
    (hie : s.grids "InteriorExterior" = none)
    (hnE1 : nameE ≠ "ClosestBoundaryCell") (hnE2 : nameE ≠ "InteriorExterior")
    (hnF : nameF ≠ "ClosestBoundaryCell") :
    (∃ s' s'' cst flow,
      generateEuclideanDistanceSDF s nameE = some s' ∧
      s'.grids "ClosestBoundaryCell" = some (GridData.vec3G cst) ∧
      generateDistanceFlowField s' nameF = some s'' ∧
      s''.grids nameF = some (GridData.vec3G flow) ∧
      (∀ c, isValidIndex s.dims c = true → flow c = vsub c (cst c)) ∧
      (∀ b, isValidIndex s.dims b = true → bnd b = true → flow b = ⟨0, 0, 0⟩)) ∧
    (∀ (t : VoxelGrid) (m : String), t.grids "ClosestBoundaryCell" = none →
      m ≠ "ClosestBoundaryCell" → generateDistanceFlowField t m = none) := by
  constructor
  · obtain ⟨s', cst, sdf, hrun, hdims, hieL, hcstL, hnameL, hcons, hbd⟩ :=
      genEuclid_spec hb hie hnE1 hnE2
    have hm1 : gInsert s'.grids nameF (GridData.vec3G fun _ => ⟨0, 0, 0⟩)
        "ClosestBoundaryCell" = some (GridData.vec3G cst) := by
      rw [gInsert, if_neg (Ne.symm hnF)]
      exact hcstL
    have hrunF : generateDistanceFlowField s' nameF
        = some ⟨s'.dims,
            gInsert (gInsert s'.grids nameF (GridData.vec3G fun _ => ⟨0, 0, 0⟩))
              nameF (GridData.vec3G (flowFun s'.dims cst))⟩ := by
      rw [generateDistanceFlowField]
      simp only [hm1]
    refine ⟨s', _, cst, flowFun s'.dims cst, hrun, hcstL, hrunF, ?_, ?_, ?_⟩
    · simp [gInsert]
    · intro c hv
      rw [flowFun, hdims, if_pos hv]
    · intro b hv hbnd
      have hcb : cst b = b := (hbd b hv hbnd).1
      rw [flowFun, hdims, if_pos hv, hcb]
      obtain ⟨bx, by', bz⟩ := b
      simp [vsub]
  · intro t m hnone hm
    rw [generateDistanceFlowField]
    have hm1 : gInsert t.grids m (GridData.vec3G fun _ => ⟨0, 0, 0⟩)
        "ClosestBoundaryCell" = none := by
      rw [gInsert, if_neg (Ne.symm hm)]
      exact hnone
    simp only [hm1]

/-- C6 (witness): the flow field after the Euclidean engine on the
1×1×1 all-boundary grid, plus the failure case on the empty state. -/
theorem c6_witness :
    (∃ s' s'' cst flow,
      generateEuclideanDistanceSDF
        ⟨⟨1, 1, 1⟩, fun n => if n = "Boundary" then some (GridData.boolG fun _ => true) else none⟩
        "ESDF" = some s' ∧
      s'.grids "ClosestBoundaryCell" = some (GridData.vec3G cst) ∧
      generateDistanceFlowField s' "Flow" = some s'' ∧
      s''.grids "Flow" = some (GridData.vec3G flow) ∧
      (∀ c, isValidIndex ⟨1, 1, 1⟩ c = true → flow c = vsub c (cst c)) ∧
      (∀ b, isValidIndex ⟨1, 1, 1⟩ b = true → (fun _ : Vec3i => true) b = true →
        flow b = ⟨0, 0, 0⟩)) ∧
    (∀ (t : VoxelGrid) (m : String), t.grids "ClosestBoundaryCell" = none →
      m ≠ "ClosestBoundaryCell" → generateDistanceFlowField t m = none) :=
  c6_flow_field
    ⟨⟨1, 1, 1⟩, fun n => if n = "Boundary" then some (GridData.boolG fun _ => true) else none⟩
    (fun _ => true) "ESDF" "Flow" rfl rfl (by decide) (by decide) (by decide)

end VG
